import Mathlib

/-!
Verification of the Malim annotation-and-audio pipeline (src/src-tauri/src/lib.rs)
against its natural-language specification.

The development shallowly embeds the relevant parts of the source:

* the sentence splitter inside `parse_text` (lines 599-622);
* the per-sentence resolution step of `parse_text` (lines 651-766): reuse-cache
  lookup, AI-call fallback with the error placeholder, the audio pass, and the
  final `Sentence` value;
* the run-level orchestration (lines 770-778): collection of `(index, Sentence)`
  pairs in arbitrary completion order followed by a sort by index;
* the progress-percent computation (lines 758-763), including an exact rational
  model of the 32-bit floating-point arithmetic it uses;
* `ensure_audio_cached` (lines 142-187) as a small-step state machine over two
  concurrent tasks sharing one cache key, with the per-key lock table, the
  generation semaphore, the file-existence check, and synthesis as explicit
  interleavable steps.

External effects (the AI endpoint, the TTS backend, the filesystem) are oracles:
per-sentence `Except` outcomes for the AI call, `Option` outcomes for audio, a
boolean for file existence, a boolean for synthesis success.
-/

set_option maxHeartbeats 1600000
set_option linter.unusedVariables false

namespace Malim

/-! ## Sentence splitter (parse_text, lines 599-622) -/

/-- Sentence-terminal characters recognised by the splitter: period, ideographic
full stop, exclamation mark, question mark, newline (line 604). -/
def isTerminalChar (c : Char) : Bool :=
  c = '.' || c = '。' || c = '!' || c = '?' || c = '\n'

/-- Models Rust `char::is_whitespace`: the Unicode `White_Space` property,
listed by code point (U+0009-U+000D, U+0020, U+0085, U+00A0, U+1680,
U+2000-U+200A, U+2028, U+2029, U+202F, U+205F, U+3000). -/
def isRustWhitespace (c : Char) : Bool :=
  c.toNat = 0x09 || c.toNat = 0x0A || c.toNat = 0x0B || c.toNat = 0x0C ||
  c.toNat = 0x0D || c.toNat = 0x20 || c.toNat = 0x85 || c.toNat = 0xA0 ||
  c.toNat = 0x1680 || (0x2000 ≤ c.toNat && c.toNat ≤ 0x200A) ||
  c.toNat = 0x2028 || c.toNat = 0x2029 || c.toNat = 0x202F || c.toNat = 0x205F ||
  c.toNat = 0x3000

/-- Models `str::trim`: drop Unicode-whitespace characters from both ends of a
character list. -/
def trimChars (l : List Char) : List Char :=
  ((l.dropWhile isRustWhitespace).reverse.dropWhile isRustWhitespace).reverse

/-- Models `str::trim` on strings. -/
def trimString (s : String) : String :=
  String.mk (trimChars s.data)

/-- Emission step of the splitter (lines 612-616 and 619-622): trim the
accumulated segment and keep it only when nonempty. -/
def emitSegment (current : List Char) : List String :=
  let t := trimChars current
  if t.isEmpty then [] else [String.mk t]

/-- Core splitting loop of `parse_text` (lines 601-618). The source pushes each
character into `current` and, on a terminal character, absorbs the following
run of terminal characters with an inner peek loop before emitting the trimmed
segment; equivalently, the loop carries a flag recording that the previous
character was terminal and emits the pending segment when that run ends (at the
first non-terminal character or at the end of the input). The trailing
unterminated segment is emitted by the base case (lines 619-622). -/
def splitLoop : List Char → List Char → Bool → List String
  | [], current, _ => emitSegment current
  | c :: rest, current, inRun =>
    if inRun && !isTerminalChar c then
      emitSegment current ++ splitLoop rest [c] false
    else
      splitLoop rest (current ++ [c]) (isTerminalChar c)

/-- The ordered list of raw sentences produced from the input text, including
the trailing unterminated segment (lines 599-622). -/
def rawSentences (text : String) : List String :=
  splitLoop text.data [] false

/-- The trailing unterminated text of an input: its maximal suffix containing
no sentence-terminal character (the part accumulated in `current` when the
outer loop of lines 601-618 ends, checked at lines 619-622). -/
def unterminatedTail (cs : List Char) : List Char :=
  (cs.reverse.takeWhile (fun c => !isTerminalChar c)).reverse

/-! ## Data model (lines 19-57) -/

/-- Token produced by the AI endpoint or carried over from a prior Sentence
(struct `WordBlock`, lines 19-34). The Rust field `lemma` is rendered as
`lemma_` because `lemma` is a reserved word here. -/
structure WordBlock where
  text : String
  pos : String
  definition : String
  chinese_root : Option String
  grammar_note : Option String
  audio_path : Option String
  lemma_ : Option String
  gram_case : Option ℕ
  gram_gender : Option String
  gram_number : Option String
  tense : Option String
  aspect : Option String
deriving DecidableEq

/-- One segmented unit of input text plus its annotation and optional audio
(struct `Sentence`, lines 36-43). -/
structure Sentence where
  id : String
  original : String
  blocks : List WordBlock
  translation : String
  audio_path : Option String
deriving DecidableEq

/-- Parsed payload of a successful AI call (struct `AiParsedResult`,
lines 53-57). -/
structure AiParsedResult where
  translation : String
  blocks : List WordBlock
deriving DecidableEq

/-! ## TTS helpers (lines 69-92) -/

/-- Fixed voice selection with a default for unrecognised language codes
(`pick_voice`, lines 69-75). -/
def pick_voice (lang : String) : String :=
  if lang = "KR" then "ko-KR-SunHiNeural"
  else if lang = "RU" then "ru-RU-SvetlanaNeural"
  else "en-US-JennyNeural"

/-- Stand-in for the SHA-256 hex digest (`hash_key`, lines 77-81). The pipeline
relies only on the key being a deterministic function of its input, so the
digest is modelled by the identity on strings. -/
def hash_key (input : String) : String := input

/-- Cache key for one audio artifact: digest of `voice|kind|text`
(lines 125 and 152). -/
def cacheKey (voice kind text : String) : String :=
  hash_key (voice ++ "|" ++ kind ++ "|" ++ text)

/-- Target file path inside the per-article audio directory:
`dir/{kind}_{key}.mp3` (lines 127 and 162). -/
def audioFilePath (dir kind key : String) : String :=
  dir ++ "/" ++ kind ++ "_" ++ key ++ ".mp3"

/-! ## Per-sentence processing (parse_text, lines 591-766) -/

/-- Lookup in the `old_map` HashMap built at lines 591-596; later inserts for
the same original text overwrite earlier ones, so the last matching Sentence
wins. -/
def oldMapLookup (olds : List Sentence) (key : String) : Option Sentence :=
  olds.reverse.find? (fun s => s.original = key)

/-- Placeholder token produced when the AI call for one sentence fails
(lines 664-677). -/
def errorWordBlock (raw err : String) : WordBlock :=
  { text := raw
    pos := "error"
    definition := "Error: " ++ err
    chinese_root := none
    grammar_note := none
    audio_path := none
    lemma_ := none
    gram_case := none
    gram_gender := none
    gram_number := none
    tense := none
    aspect := none }

/-- Sentinel translation attached to a failed sentence (line 678). -/
def errorTranslation : String := "$Translation unavailable due to error."

/-- Models `str::starts_with('$')` (line 655): whether the first character of
the string is the sentinel `$`. -/
def startsWithDollar (s : String) : Bool :=
  match s.data with
  | [] => false
  | c :: _ => c = '$'

/-- AI branch of the per-sentence step (lines 660-680): on success the parsed
blocks and translation are used; on failure a single error-tagged placeholder
block and the sentinel translation. The second component counts AI calls. -/
def resolveByAi (aiResult : Except String AiParsedResult) (raw : String) :
    (List WordBlock × String) × ℕ :=
  match aiResult with
  | .ok res => ((res.blocks, res.translation), 1)
  | .error err => (([errorWordBlock raw err], errorTranslation), 1)

/-- Per-sentence resolution of blocks and translation (lines 652-681): a
reuse-cache hit is honoured only when the cached translation does not start
with the `$` sentinel (line 655); otherwise the AI endpoint is consulted. -/
def resolveSentence (oldMap : List Sentence) (aiResult : Except String AiParsedResult)
    (raw : String) : (List WordBlock × String) × ℕ :=
  match oldMapLookup oldMap raw with
  | some b =>
    if !startsWithDollar b.translation then ((b.blocks, b.translation), 0)
    else resolveByAi aiResult raw
  | none => resolveByAi aiResult raw

/-- Audio pass over the blocks of one sentence (lines 700-742): every block's
`audio_path` is overwritten with the collected fan-out result for its index;
blocks tagged as punctuation or with blank text are skipped and receive `none`
(lines 724-726). `blockAudio idx` is the oracle for
`ensure_audio_cached(...).ok()` on block `idx`. -/
def applyBlockAudio (blockAudio : ℕ → Option String) (blocks : List WordBlock) :
    List WordBlock :=
  blocks.enum.map (fun p =>
    let b := p.2
    if b.pos = "punctuation" || (trimString b.text).isEmpty then
      { b with audio_path := none }
    else
      { b with audio_path := blockAudio p.1 })

/-- The whole per-sentence task body (lines 651-766) as a function of the
oracles: `aiResult` is the outcome of the AI call (used only on a cache miss),
`sentAudio` the outcome of the spawned sentence-audio task after
`.ok()`/join-`.ok().flatten()`, `blockAudio` the per-block audio outcomes.
Returns the finalised `Sentence` (lines 747-753) and the number of AI calls
performed for this sentence. -/
def processSentence (articleId : String) (oldMap : List Sentence)
    (preCacheAudio : Bool) (aiResult : Except String AiParsedResult)
    (sentAudio : Option String) (blockAudio : ℕ → Option String)
    (i : ℕ) (raw : String) : Sentence × ℕ :=
  ({ id := articleId ++ "_" ++ toString i
     original := raw
     blocks :=
       if preCacheAudio then
         applyBlockAudio blockAudio (resolveSentence oldMap aiResult raw).1.1
       else (resolveSentence oldMap aiResult raw).1.1
     translation := (resolveSentence oldMap aiResult raw).1.2
     audio_path := if preCacheAudio then sentAudio else none },
   (resolveSentence oldMap aiResult raw).2)

/-! ## Run-level orchestration (lines 627-778) -/

/-- Permit count of the generation semaphore: `tts_concurrency.max(1)`
(line 635). -/
def ttsSemPermits (tts_concurrency : ℕ) : ℕ :=
  Nat.max tts_concurrency 1

/-- Per-sentence token-audio fan-out limit: `tts_concurrency.min(8).max(1)`
(line 701). -/
def innerAudioLimit (tts_concurrency : ℕ) : ℕ :=
  Nat.max (Nat.min tts_concurrency 8) 1

/-- Comparison used by `sort_by_key(|(i, _)| *i)` (line 775). -/
def keyLe (a b : ℕ × Sentence) : Prop := a.1 ≤ b.1

instance : DecidableRel keyLe :=
  fun a b => inferInstanceAs (Decidable (a.1 ≤ b.1))

instance : IsTotal (ℕ × Sentence) keyLe :=
  ⟨fun a b => Nat.le_total a.1 b.1⟩

instance : IsTrans (ℕ × Sentence) keyLe :=
  ⟨fun _ _ _ => Nat.le_trans⟩

/-- Model of the stable sort by original index (line 775). -/
def sortByKey (l : List (ℕ × Sentence)) : List (ℕ × Sentence) :=
  List.insertionSort keyLe l

/-- Models `buffer_unordered` completion (lines 770-773): the indexed results
arrive in an arbitrary completion order, given as the list of indices in the
order the tasks finish. -/
def reorder (order : List ℕ) (pairs : List (ℕ × Sentence)) : List (ℕ × Sentence) :=
  order.filterMap (fun i => pairs[i]?)

/-- Model of the `parse_text` command (lines 573-779). The external world is
summarised by oracles: `aiResult i` is the outcome of the AI call for sentence
`i`, `sentAudio i` and `blockAudio i j` the audio outcomes, and `order` the
completion order of the concurrent per-sentence tasks. The unused parameters
mirror the Rust signature; they influence only the oracles. -/
def parseTextModel (id text language api_key api_url model_name : String)
    (concurrency : ℕ) (pre_cache_audio : Bool) (tts_concurrency : ℕ)
    (old_sentences : Option (List Sentence))
    (aiResult : ℕ → Except String AiParsedResult)
    (sentAudio : ℕ → Option String) (blockAudio : ℕ → ℕ → Option String)
    (order : List ℕ) : Except String (List Sentence) :=
  if api_key = "" then .error "API Key is missing"
  else
    .ok ((sortByKey (reorder order ((rawSentences text).enum.map (fun p =>
      (p.1, (processSentence id (old_sentences.getD []) pre_cache_audio (aiResult p.1)
        (sentAudio p.1) (blockAudio p.1) p.1 p.2).1))))).map Prod.snd)

/-- The per-sentence results in original input order: what `parse_text` returns
when the completion order is a permutation of the indices. -/
def orderedResults (id text : String) (pre_cache_audio : Bool)
    (oldMap : List Sentence) (aiResult : ℕ → Except String AiParsedResult)
    (sentAudio : ℕ → Option String) (blockAudio : ℕ → ℕ → Option String) :
    List Sentence :=
  (rawSentences text).enum.map (fun p =>
    (processSentence id oldMap pre_cache_audio (aiResult p.1)
      (sentAudio p.1) (blockAudio p.1) p.1 p.2).1)

/-! ## Concrete fixtures used as witness and counterexample inputs -/

/-- Fixture: a previously computed Sentence with an ordinary translation. -/
def cachedHi : Sentence :=
  { id := "a_0"
    original := "Hi"
    blocks := [errorWordBlock "x" "y"]
    translation := "salut"
    audio_path := none }

/-- Fixture: a previously computed token that carries an audio path. -/
def cachedTok : WordBlock :=
  { errorWordBlock "w" "m" with audio_path := some "tok.mp3" }

/-- Fixture: a previously computed Sentence carrying sentence-level and
token-level audio paths. -/
def cachedHiAudio : Sentence :=
  { id := "a_0"
    original := "Hi"
    blocks := [cachedTok]
    translation := "salut"
    audio_path := some "old.mp3" }

/-- Fixture: a previously computed Sentence whose translation is the error
sentinel. -/
def errCachedHi : Sentence :=
  { id := "a_0"
    original := "Hi"
    blocks := []
    translation := errorTranslation
    audio_path := none }

/-! ## Exact model of the f32 percent computation (lines 755-763) -/

/-- Round-half-to-even of a rational to an integer. -/
def roundHalfEven (q : ℚ) : ℤ :=
  if q - ⌊q⌋ < 1/2 then ⌊q⌋
  else if 1/2 < q - ⌊q⌋ then ⌊q⌋ + 1
  else if 2 ∣ ⌊q⌋ then ⌊q⌋ else ⌊q⌋ + 1

/-- Exact-rational model of IEEE binary32 rounding (round to nearest, ties to
even) for values in the normal range; the percent computation never reaches
subnormals or overflow. The value is scaled into the 24-bit significand range
`[2^23, 2^24)` and the significand is rounded half-to-even. Nonpositive inputs
map to zero (the pipeline only produces nonnegative values). -/
def roundF32 (q : ℚ) : ℚ :=
  if q ≤ 0 then 0
  else (roundHalfEven (q / 2 ^ (Int.log 2 q - 23)) : ℚ) * 2 ^ (Int.log 2 q - 23)

/-- Progress percentage as computed at line 762: `current` and `total` are cast
to f32, divided in f32, the quotient is multiplied by the exactly representable
constant 100.0 in f32, and the product is cast to u32, which truncates toward
zero. -/
def progressPercent (current total : ℕ) : ℕ :=
  (⌊roundF32 (roundF32 (roundF32 current / roundF32 total) * 100)⌋).toNat

/-! ## State machine for ensure_audio_cached (lines 142-187)

Two concurrent invocations with identical arguments (hence one shared cache
key) are modelled as two tasks stepping through the function's suspension
points. Steps are the spans between `.await` points of the source:

* `start`: lines 151-157 — compute the key, insert-if-absent the per-key lock
  into the table, clone the mutex handle;
* `acquire`: line 159 — block until the cloned mutex is free, then hold it;
* `check`: lines 161-166 — resolve the directory and test file existence; on a
  hit return the path at once (the guard drops, the table entry is NOT
  removed);
* `waitSem`: lines 168-171 — block until the generation semaphore has a free
  permit, then take it and issue the synthesis call;
* `synth`: lines 178-186 — the blocking synthesis completes; on success the
  bytes are written and renamed into place, the table entry is removed and the
  path returned; on failure the error propagates before the removal (line 184
  is skipped), the guard and permit drop either way.

With two tasks at most two mutexes are ever created for the key (a task runs
`start` once), so the table is flattened to the creation index of its current
mutex and two holder cells. `did` is a ghost flag marking that a task issued a
synthesis call; it does not influence any transition. -/

/-- Program counter of one `ensure_audio_cached` task. -/
inductive Pc
  | start
  | acquire
  | check
  | waitSem
  | synth
  | done
deriving DecidableEq

instance : DecidableEq (Except String String) := fun a b =>
  match a, b with
  | .ok x, .ok y =>
    if h : x = y then isTrue (by rw [h]) else isFalse (fun hh => h (Except.ok.inj hh))
  | .ok _, .error _ => isFalse (fun hh => Except.noConfusion hh)
  | .error _, .ok _ => isFalse (fun hh => Except.noConfusion hh)
  | .error x, .error y =>
    if h : x = y then isTrue (by rw [h]) else isFalse (fun hh => h (Except.error.inj hh))

/-- Local state of one task: program counter, the creation index of the mutex
cloned at `start`, the ghost synthesis marker, and the returned value once
done. -/
structure TaskSt where
  pc : Pc
  lockRef : ℕ
  did : Bool
  result : Option (Except String String)
deriving DecidableEq

/-- Shared state for one cache key: the lock-table entry (creation index of the
current mutex), the two holder cells, how many mutexes were created, the
semaphore permits, whether the target file exists, and synthesis bookkeeping
(calls in flight and calls ever issued for this key). -/
structure Cfg where
  table : Option ℕ
  h0 : Option (Fin 2)
  h1 : Option (Fin 2)
  created : ℕ
  permits : ℕ
  file : Bool
  inFlight : ℕ
  synthCalls : ℕ
  task0 : TaskSt
  task1 : TaskSt
deriving DecidableEq

/-- The task-local state of task `t`. -/
def Cfg.task (c : Cfg) (t : Fin 2) : TaskSt :=
  if t = 0 then c.task0 else c.task1

/-- Replace the task-local state of task `t`. -/
def Cfg.setTask (c : Cfg) (t : Fin 2) (s : TaskSt) : Cfg :=
  if t = 0 then { c with task0 := s } else { c with task1 := s }

/-- Holder cell of the mutex with creation index `m`. -/
def Cfg.holderAt (c : Cfg) (m : ℕ) : Option (Fin 2) :=
  if m = 0 then c.h0 else c.h1

/-- Update the holder cell of the mutex with creation index `m`. -/
def Cfg.setHolder (c : Cfg) (m : ℕ) (v : Option (Fin 2)) : Cfg :=
  if m = 0 then { c with h0 := v } else { c with h1 := v }

/-- One scheduler step of task `t`. `synthOk t` tells whether the synthesis
call issued by task `t` would succeed, `path` is the target file path. A task
whose next action is blocked (mutex held by the other task, no free permit)
leaves the configuration unchanged. -/
def stepTask (synthOk : Fin 2 → Bool) (path : String) (t : Fin 2) (c : Cfg) : Cfg :=
  let ts := c.task t
  match ts.pc with
  | .start =>
    match c.table with
    | some m => c.setTask t { ts with pc := .acquire, lockRef := m }
    | none =>
      let m := c.created
      let c2 := c.setTask t { ts with pc := .acquire, lockRef := m }
      { c2 with table := some m, created := c.created + 1 }
  | .acquire =>
    if c.holderAt ts.lockRef = none then
      (c.setTask t { ts with pc := .check }).setHolder ts.lockRef (some t)
    else c
  | .check =>
    if c.file then
      (c.setTask t { ts with pc := .done, result := some (.ok path) }).setHolder
        ts.lockRef none
    else c.setTask t { ts with pc := .waitSem }
  | .waitSem =>
    if c.permits = 0 then c
    else
      let c2 := c.setTask t { ts with pc := .synth, did := true }
      { c2 with permits := c.permits - 1, inFlight := c.inFlight + 1,
                synthCalls := c.synthCalls + 1 }
  | .synth =>
    if synthOk t then
      let s2 := { ts with pc := Pc.done, result := some (Except.ok path) }
      let c2 := (c.setTask t s2).setHolder ts.lockRef none
      { c2 with table := none, file := true, inFlight := c.inFlight - 1,
                permits := c.permits + 1 }
    else
      let s2 := { ts with pc := Pc.done, result := some (Except.error ("tts error")) }
      let c2 := (c.setTask t s2).setHolder ts.lockRef none
      { c2 with inFlight := c.inFlight - 1, permits := c.permits + 1 }
  | .done => c

/-- Initial configuration: empty lock table, no mutexes created, `permits0`
semaphore permits, target file existing or not, both tasks about to enter. -/
def initCfg (file0 : Bool) (permits0 : ℕ) : Cfg :=
  { table := none
    h0 := none
    h1 := none
    created := 0
    permits := permits0
    file := file0
    inFlight := 0
    synthCalls := 0
    task0 := ⟨.start, 0, false, none⟩
    task1 := ⟨.start, 0, false, none⟩ }

/-- Run the machine under a schedule: the list of task ids chosen by the
scheduler at each step. -/
def runSched (synthOk : Fin 2 → Bool) (path : String) (file0 : Bool)
    (permits0 : ℕ) (sched : List (Fin 2)) : Cfg :=
  sched.foldl (fun c t => stepTask synthOk path t c) (initCfg file0 permits0)

/-- Target audio file path of one request, as assembled at lines 151-162:
voice selection, cache key over `voice|kind|text`, and the `{kind}_{key}.mp3`
file name inside the per-article audio directory `dir`. -/
def ensurePath (dir lang kind text : String) : String :=
  audioFilePath dir kind (cacheKey (pick_voice lang) kind text)

/-- The set of configurations reachable by two tasks with the same cache key
when the file does not initially exist and synthesis succeeds, computed as an
explicit disjunction over the (finitely many) reachable shapes; the semaphore
permit count is unconstrained. -/
def ReachSet (path : String) (c : Cfg) : Prop :=
  (c.table = none ∧ c.h0 = none ∧ c.h1 = none ∧ c.created = 0 ∧ c.file = false ∧ c.inFlight = 0 ∧ c.synthCalls = 0 ∧ c.task0 = (⟨Pc.start, 0, false, none⟩ : TaskSt) ∧ c.task1 = (⟨Pc.start, 0, false, none⟩ : TaskSt))
  ∨ (c.table = some 0 ∧ c.h0 = none ∧ c.h1 = none ∧ c.created = 1 ∧ c.file = false ∧ c.inFlight = 0 ∧ c.synthCalls = 0 ∧ c.task0 = (⟨Pc.acquire, 0, false, none⟩ : TaskSt) ∧ c.task1 = (⟨Pc.start, 0, false, none⟩ : TaskSt))
  ∨ (c.table = some 0 ∧ c.h0 = none ∧ c.h1 = none ∧ c.created = 1 ∧ c.file = false ∧ c.inFlight = 0 ∧ c.synthCalls = 0 ∧ c.task0 = (⟨Pc.start, 0, false, none⟩ : TaskSt) ∧ c.task1 = (⟨Pc.acquire, 0, false, none⟩ : TaskSt))
  ∨ (c.table = some 0 ∧ c.h0 = some 0 ∧ c.h1 = none ∧ c.created = 1 ∧ c.file = false ∧ c.inFlight = 0 ∧ c.synthCalls = 0 ∧ c.task0 = (⟨Pc.check, 0, false, none⟩ : TaskSt) ∧ c.task1 = (⟨Pc.start, 0, false, none⟩ : TaskSt))
  ∨ (c.table = some 0 ∧ c.h0 = none ∧ c.h1 = none ∧ c.created = 1 ∧ c.file = false ∧ c.inFlight = 0 ∧ c.synthCalls = 0 ∧ c.task0 = (⟨Pc.acquire, 0, false, none⟩ : TaskSt) ∧ c.task1 = (⟨Pc.acquire, 0, false, none⟩ : TaskSt))
  ∨ (c.table = some 0 ∧ c.h0 = some 1 ∧ c.h1 = none ∧ c.created = 1 ∧ c.file = false ∧ c.inFlight = 0 ∧ c.synthCalls = 0 ∧ c.task0 = (⟨Pc.start, 0, false, none⟩ : TaskSt) ∧ c.task1 = (⟨Pc.check, 0, false, none⟩ : TaskSt))
  ∨ (c.table = some 0 ∧ c.h0 = some 0 ∧ c.h1 = none ∧ c.created = 1 ∧ c.file = false ∧ c.inFlight = 0 ∧ c.synthCalls = 0 ∧ c.task0 = (⟨Pc.waitSem, 0, false, none⟩ : TaskSt) ∧ c.task1 = (⟨Pc.start, 0, false, none⟩ : TaskSt))
  ∨ (c.table = some 0 ∧ c.h0 = some 0 ∧ c.h1 = none ∧ c.created = 1 ∧ c.file = false ∧ c.inFlight = 0 ∧ c.synthCalls = 0 ∧ c.task0 = (⟨Pc.check, 0, false, none⟩ : TaskSt) ∧ c.task1 = (⟨Pc.acquire, 0, false, none⟩ : TaskSt))
  ∨ (c.table = some 0 ∧ c.h0 = some 1 ∧ c.h1 = none ∧ c.created = 1 ∧ c.file = false ∧ c.inFlight = 0 ∧ c.synthCalls = 0 ∧ c.task0 = (⟨Pc.acquire, 0, false, none⟩ : TaskSt) ∧ c.task1 = (⟨Pc.check, 0, false, none⟩ : TaskSt))
  ∨ (c.table = some 0 ∧ c.h0 = some 1 ∧ c.h1 = none ∧ c.created = 1 ∧ c.file = false ∧ c.inFlight = 0 ∧ c.synthCalls = 0 ∧ c.task0 = (⟨Pc.start, 0, false, none⟩ : TaskSt) ∧ c.task1 = (⟨Pc.waitSem, 0, false, none⟩ : TaskSt))
  ∨ (c.table = some 0 ∧ c.h0 = some 0 ∧ c.h1 = none ∧ c.created = 1 ∧ c.file = false ∧ c.inFlight = 1 ∧ c.synthCalls = 1 ∧ c.task0 = (⟨Pc.synth, 0, true, none⟩ : TaskSt) ∧ c.task1 = (⟨Pc.start, 0, false, none⟩ : TaskSt))
  ∨ (c.table = some 0 ∧ c.h0 = some 0 ∧ c.h1 = none ∧ c.created = 1 ∧ c.file = false ∧ c.inFlight = 0 ∧ c.synthCalls = 0 ∧ c.task0 = (⟨Pc.waitSem, 0, false, none⟩ : TaskSt) ∧ c.task1 = (⟨Pc.acquire, 0, false, none⟩ : TaskSt))
  ∨ (c.table = some 0 ∧ c.h0 = some 1 ∧ c.h1 = none ∧ c.created = 1 ∧ c.file = false ∧ c.inFlight = 0 ∧ c.synthCalls = 0 ∧ c.task0 = (⟨Pc.acquire, 0, false, none⟩ : TaskSt) ∧ c.task1 = (⟨Pc.waitSem, 0, false, none⟩ : TaskSt))
  ∨ (c.table = some 0 ∧ c.h0 = some 1 ∧ c.h1 = none ∧ c.created = 1 ∧ c.file = false ∧ c.inFlight = 1 ∧ c.synthCalls = 1 ∧ c.task0 = (⟨Pc.start, 0, false, none⟩ : TaskSt) ∧ c.task1 = (⟨Pc.synth, 0, true, none⟩ : TaskSt))
  ∨ (c.table = none ∧ c.h0 = none ∧ c.h1 = none ∧ c.created = 1 ∧ c.file = true ∧ c.inFlight = 0 ∧ c.synthCalls = 1 ∧ c.task0 = (⟨Pc.done, 0, true, some (Except.ok path)⟩ : TaskSt) ∧ c.task1 = (⟨Pc.start, 0, false, none⟩ : TaskSt))
  ∨ (c.table = some 0 ∧ c.h0 = some 0 ∧ c.h1 = none ∧ c.created = 1 ∧ c.file = false ∧ c.inFlight = 1 ∧ c.synthCalls = 1 ∧ c.task0 = (⟨Pc.synth, 0, true, none⟩ : TaskSt) ∧ c.task1 = (⟨Pc.acquire, 0, false, none⟩ : TaskSt))
  ∨ (c.table = some 0 ∧ c.h0 = some 1 ∧ c.h1 = none ∧ c.created = 1 ∧ c.file = false ∧ c.inFlight = 1 ∧ c.synthCalls = 1 ∧ c.task0 = (⟨Pc.acquire, 0, false, none⟩ : TaskSt) ∧ c.task1 = (⟨Pc.synth, 0, true, none⟩ : TaskSt))
  ∨ (c.table = none ∧ c.h0 = none ∧ c.h1 = none ∧ c.created = 1 ∧ c.file = true ∧ c.inFlight = 0 ∧ c.synthCalls = 1 ∧ c.task0 = (⟨Pc.start, 0, false, none⟩ : TaskSt) ∧ c.task1 = (⟨Pc.done, 0, true, some (Except.ok path)⟩ : TaskSt))
  ∨ (c.table = some 1 ∧ c.h0 = none ∧ c.h1 = none ∧ c.created = 2 ∧ c.file = true ∧ c.inFlight = 0 ∧ c.synthCalls = 1 ∧ c.task0 = (⟨Pc.done, 0, true, some (Except.ok path)⟩ : TaskSt) ∧ c.task1 = (⟨Pc.acquire, 1, false, none⟩ : TaskSt))
  ∨ (c.table = none ∧ c.h0 = none ∧ c.h1 = none ∧ c.created = 1 ∧ c.file = true ∧ c.inFlight = 0 ∧ c.synthCalls = 1 ∧ c.task0 = (⟨Pc.done, 0, true, some (Except.ok path)⟩ : TaskSt) ∧ c.task1 = (⟨Pc.acquire, 0, false, none⟩ : TaskSt))
  ∨ (c.table = none ∧ c.h0 = none ∧ c.h1 = none ∧ c.created = 1 ∧ c.file = true ∧ c.inFlight = 0 ∧ c.synthCalls = 1 ∧ c.task0 = (⟨Pc.acquire, 0, false, none⟩ : TaskSt) ∧ c.task1 = (⟨Pc.done, 0, true, some (Except.ok path)⟩ : TaskSt))
  ∨ (c.table = some 1 ∧ c.h0 = none ∧ c.h1 = none ∧ c.created = 2 ∧ c.file = true ∧ c.inFlight = 0 ∧ c.synthCalls = 1 ∧ c.task0 = (⟨Pc.acquire, 1, false, none⟩ : TaskSt) ∧ c.task1 = (⟨Pc.done, 0, true, some (Except.ok path)⟩ : TaskSt))
  ∨ (c.table = some 1 ∧ c.h0 = none ∧ c.h1 = some 1 ∧ c.created = 2 ∧ c.file = true ∧ c.inFlight = 0 ∧ c.synthCalls = 1 ∧ c.task0 = (⟨Pc.done, 0, true, some (Except.ok path)⟩ : TaskSt) ∧ c.task1 = (⟨Pc.check, 1, false, none⟩ : TaskSt))
  ∨ (c.table = none ∧ c.h0 = some 1 ∧ c.h1 = none ∧ c.created = 1 ∧ c.file = true ∧ c.inFlight = 0 ∧ c.synthCalls = 1 ∧ c.task0 = (⟨Pc.done, 0, true, some (Except.ok path)⟩ : TaskSt) ∧ c.task1 = (⟨Pc.check, 0, false, none⟩ : TaskSt))
  ∨ (c.table = none ∧ c.h0 = some 0 ∧ c.h1 = none ∧ c.created = 1 ∧ c.file = true ∧ c.inFlight = 0 ∧ c.synthCalls = 1 ∧ c.task0 = (⟨Pc.check, 0, false, none⟩ : TaskSt) ∧ c.task1 = (⟨Pc.done, 0, true, some (Except.ok path)⟩ : TaskSt))
  ∨ (c.table = some 1 ∧ c.h0 = none ∧ c.h1 = some 0 ∧ c.created = 2 ∧ c.file = true ∧ c.inFlight = 0 ∧ c.synthCalls = 1 ∧ c.task0 = (⟨Pc.check, 1, false, none⟩ : TaskSt) ∧ c.task1 = (⟨Pc.done, 0, true, some (Except.ok path)⟩ : TaskSt))
  ∨ (c.table = some 1 ∧ c.h0 = none ∧ c.h1 = none ∧ c.created = 2 ∧ c.file = true ∧ c.inFlight = 0 ∧ c.synthCalls = 1 ∧ c.task0 = (⟨Pc.done, 0, true, some (Except.ok path)⟩ : TaskSt) ∧ c.task1 = (⟨Pc.done, 1, false, some (Except.ok path)⟩ : TaskSt))
  ∨ (c.table = none ∧ c.h0 = none ∧ c.h1 = none ∧ c.created = 1 ∧ c.file = true ∧ c.inFlight = 0 ∧ c.synthCalls = 1 ∧ c.task0 = (⟨Pc.done, 0, true, some (Except.ok path)⟩ : TaskSt) ∧ c.task1 = (⟨Pc.done, 0, false, some (Except.ok path)⟩ : TaskSt))
  ∨ (c.table = none ∧ c.h0 = none ∧ c.h1 = none ∧ c.created = 1 ∧ c.file = true ∧ c.inFlight = 0 ∧ c.synthCalls = 1 ∧ c.task0 = (⟨Pc.done, 0, false, some (Except.ok path)⟩ : TaskSt) ∧ c.task1 = (⟨Pc.done, 0, true, some (Except.ok path)⟩ : TaskSt))
  ∨ (c.table = some 1 ∧ c.h0 = none ∧ c.h1 = none ∧ c.created = 2 ∧ c.file = true ∧ c.inFlight = 0 ∧ c.synthCalls = 1 ∧ c.task0 = (⟨Pc.done, 1, false, some (Except.ok path)⟩ : TaskSt) ∧ c.task1 = (⟨Pc.done, 0, true, some (Except.ok path)⟩ : TaskSt))

/-- Concatenation of the character data of a list of strings. -/
def concatChars (ss : List String) : List Char :=
  (ss.map String.data).flatten

/-- The non-whitespace content of a character list, in order. -/
def nws (l : List Char) : List Char :=
  l.filter (fun c => !isRustWhitespace c)

/-! ## Helper lemmas about trimming and the splitter -/

theorem dropWhile_idem (p : Char → Bool) (l : List Char) :
    (l.dropWhile p).dropWhile p = l.dropWhile p := by
  induction l with
  | nil => rfl
  | cons a as ih =>
    by_cases h : p a
    · simp [List.dropWhile_cons, h, ih]
    · simp [List.dropWhile_cons, h]

theorem dropWhile_trimChars (l : List Char) :
    (trimChars l).dropWhile isRustWhitespace = trimChars l := by
  obtain ⟨pre, hpre⟩ :=
    List.dropWhile_suffix (l := (l.dropWhile isRustWhitespace).reverse)
      (p := isRustWhitespace)
  have hrest : trimChars l ++ pre.reverse = l.dropWhile isRustWhitespace := by
    have h := congrArg List.reverse hpre
    rw [List.reverse_append, List.reverse_reverse] at h
    exact h
  have hAd : (l.dropWhile isRustWhitespace).dropWhile isRustWhitespace
      = l.dropWhile isRustWhitespace := dropWhile_idem _ _
  cases hBc : trimChars l with
  | nil => rfl
  | cons b bs =>
    have hAeq : l.dropWhile isRustWhitespace = b :: (bs ++ pre.reverse) := by
      rw [← hrest, hBc]
      simp
    have hb : isRustWhitespace b = false := by
      by_contra hcon
      have hb2 : isRustWhitespace b = true := by
        cases hx : isRustWhitespace b
        · exact absurd hx hcon
        · rfl
      rw [hAeq, List.dropWhile_cons, hb2] at hAd
      simp only [if_pos] at hAd
      have hlen := congrArg List.length hAd
      have hle : ((bs ++ pre.reverse).takeWhile isRustWhitespace).length
          + ((bs ++ pre.reverse).dropWhile isRustWhitespace).length
          = (bs ++ pre.reverse).length := by
        rw [← List.length_append, List.takeWhile_append_dropWhile]
      simp only [List.length_cons] at hlen
      omega
    rw [List.dropWhile_cons, hb]
    simp

theorem trimChars_idem (l : List Char) : trimChars (trimChars l) = trimChars l := by
  have h1 : (trimChars l).dropWhile isRustWhitespace = trimChars l := dropWhile_trimChars l
  have h2 : (trimChars l).reverse.dropWhile isRustWhitespace = (trimChars l).reverse := by
    have h3 : (trimChars l).reverse
        = (l.dropWhile isRustWhitespace).reverse.dropWhile isRustWhitespace := by
      unfold trimChars
      rw [List.reverse_reverse]
    rw [h3]
    exact dropWhile_idem _ _
  show (((trimChars l).dropWhile isRustWhitespace).reverse.dropWhile
      isRustWhitespace).reverse = trimChars l
  rw [h1, h2, List.reverse_reverse]

theorem nws_dropWhile (l : List Char) :
    nws (l.dropWhile isRustWhitespace) = nws l := by
  induction l with
  | nil => rfl
  | cons a as ih =>
    by_cases h : isRustWhitespace a
    · simp [List.dropWhile_cons, h, nws, List.filter_cons] at ih ⊢
      exact ih
    · simp [List.dropWhile_cons, h]

theorem nws_reverse (l : List Char) : nws l.reverse = (nws l).reverse := by
  unfold nws
  exact List.filter_reverse _ _

theorem nws_trimChars (l : List Char) : nws (trimChars l) = nws l := by
  unfold trimChars
  rw [nws_reverse, nws_dropWhile, nws_reverse, List.reverse_reverse, nws_dropWhile]

theorem nws_append (l m : List Char) : nws (l ++ m) = nws l ++ nws m := by
  unfold nws
  exact List.filter_append _ _

theorem trimChars_whitespace_only (l : List Char) (h : trimChars l = [])
    : nws l = [] := by
  rw [← nws_trimChars, h]
  rfl

theorem concatChars_append (xs ys : List String) :
    concatChars (xs ++ ys) = concatChars xs ++ concatChars ys := by
  unfold concatChars
  rw [List.map_append, List.flatten_append]

theorem nws_emitSegment (current : List Char) :
    nws (concatChars (emitSegment current)) = nws current := by
  unfold emitSegment
  by_cases h : (trimChars current).isEmpty
  · simp only [h, if_pos]
    have h2 : trimChars current = [] := List.isEmpty_iff.mp h
    rw [trimChars_whitespace_only current h2]
    rfl
  · simp only [h, if_neg, Bool.not_eq_true]
    show nws ((String.mk (trimChars current)).data ++ []) = nws current
    rw [List.append_nil]
    exact nws_trimChars current

theorem splitLoop_content : ∀ (cs current : List Char) (flag : Bool),
    nws (concatChars (splitLoop cs current flag)) = nws (current ++ cs) := by
  intro cs
  induction cs with
  | nil =>
    intro current flag
    rw [List.append_nil]
    exact nws_emitSegment current
  | cons c rest ih =>
    intro current flag
    unfold splitLoop
    by_cases h : (flag && !isTerminalChar c) = true
    · rw [if_pos h, concatChars_append, nws_append, nws_emitSegment, ih]
      rw [← nws_append]
      rfl
    · rw [if_neg h, ih]
      simp

theorem splitLoop_mem : ∀ (cs current : List Char) (flag : Bool) (s : String),
    s ∈ splitLoop cs current flag →
    ∃ seg, s = String.mk (trimChars seg) ∧ (trimChars seg).isEmpty = false := by
  intro cs
  induction cs with
  | nil =>
    intro current flag s hs
    unfold splitLoop emitSegment at hs
    by_cases h : (trimChars current).isEmpty
    · rw [if_pos h] at hs
      exact absurd hs (List.not_mem_nil s)
    · rw [if_neg h] at hs
      rcases List.mem_singleton.mp hs with rfl
      exact ⟨current, rfl, Bool.not_eq_true _ ▸ eq_false_of_ne_true h⟩
  | cons c rest ih =>
    intro current flag s hs
    unfold splitLoop at hs
    by_cases h : (flag && !isTerminalChar c) = true
    · rw [if_pos h] at hs
      rcases List.mem_append.mp hs with h1 | h2
      · unfold emitSegment at h1
        by_cases he : (trimChars current).isEmpty
        · rw [if_pos he] at h1
          exact absurd h1 (List.not_mem_nil s)
        · rw [if_neg he] at h1
          rcases List.mem_singleton.mp h1 with rfl
          exact ⟨current, rfl, eq_false_of_ne_true he⟩
      · exact ih [c] false s h2
    · rw [if_neg h] at hs
      exact ih (current ++ [c]) (isTerminalChar c) s hs

theorem splitLoop_no_terminal : ∀ (cs current : List Char),
    (∀ c ∈ cs, isTerminalChar c = false) →
    splitLoop cs current false = emitSegment (current ++ cs) := by
  intro cs
  induction cs with
  | nil => intro current _; rw [List.append_nil]; rfl
  | cons c rest ih =>
    intro current hall
    unfold splitLoop
    have hc : isTerminalChar c = false := hall c (List.mem_cons_self c rest)
    rw [hc]
    simp only [Bool.and_false, Bool.false_and, if_neg Bool.false_ne_true]
    rw [ih (current ++ [c]) (fun x hx => hall x (List.mem_cons_of_mem c hx))]
    rw [List.append_assoc]
    rfl

theorem dropWhile_eq_self_head (p : Char → Bool) (b : Char) (bs : List Char)
    (h : (b :: bs).dropWhile p = b :: bs) : p b = false := by
  by_contra hcon
  have hb2 : p b = true := by
    cases hx : p b
    · exact absurd hx hcon
    · rfl
  rw [List.dropWhile_cons, hb2] at h
  simp only [if_pos] at h
  have hlen := congrArg List.length h
  have hle : (bs.takeWhile p).length + (bs.dropWhile p).length = bs.length := by
    rw [← List.length_append, List.takeWhile_append_dropWhile]
  simp only [List.length_cons] at hlen
  omega

theorem trimChars_head_not_ws (t : List Char) (b : Char) (bs : List Char)
    (h : trimChars t = b :: bs) : isRustWhitespace b = false := by
  have hd := dropWhile_trimChars t
  rw [h] at hd
  exact dropWhile_eq_self_head _ _ _ hd

theorem takeWhile_all (p : Char → Bool) : ∀ (l : List Char),
    (∀ x ∈ l, p x = true) → l.takeWhile p = l := by
  intro l
  induction l with
  | nil => intro _; rfl
  | cons a l2 ih =>
    intro hall
    simp [List.takeWhile_cons, hall a (List.mem_cons_self a l2)]
    exact fun x hx => hall x (List.mem_cons_of_mem a hx)

theorem takeWhile_append_of_all (p : Char → Bool) : ∀ (l m : List Char),
    (∀ x ∈ l, p x = true) → (l ++ m).takeWhile p = l ++ m.takeWhile p := by
  intro l
  induction l with
  | nil => intro m _; rfl
  | cons a l2 ih =>
    intro m hall
    rw [List.cons_append]
    simp [List.takeWhile_cons, hall a (List.mem_cons_self a l2)]
    exact ih m (fun x hx => hall x (List.mem_cons_of_mem a hx))

theorem takeWhile_append_of_stop (p : Char → Bool) : ∀ (l m : List Char),
    (∃ x ∈ l, p x = false) → (l ++ m).takeWhile p = l.takeWhile p := by
  intro l
  induction l with
  | nil =>
    rintro m ⟨x, hx, _⟩
    exact absurd hx (List.not_mem_nil x)
  | cons a l2 ih =>
    rintro m ⟨x, hx, hpx⟩
    by_cases ha : p a = true
    · rw [List.cons_append]
      simp [List.takeWhile_cons, ha]
      have hx2 : x ∈ l2 := by
        rcases List.mem_cons.mp hx with rfl | h2
        · rw [hpx] at ha
          exact absurd ha (by simp)
        · exact h2
      exact ih m ⟨x, hx2, hpx⟩
    · have ha2 : p a = false := by
        cases h2 : p a
        · rfl
        · exact absurd h2 ha
      rw [List.cons_append]
      simp [List.takeWhile_cons, ha2]

theorem unterminatedTail_no_terminal (cs : List Char)
    (h : ∀ c ∈ cs, isTerminalChar c = false) : unterminatedTail cs = cs := by
  unfold unterminatedTail
  rw [takeWhile_all _ _ (fun x hx => by simp [h x (List.mem_reverse.mp hx)])]
  exact List.reverse_reverse cs

theorem unterminatedTail_cons_term (c : Char) (rest : List Char)
    (hc : isTerminalChar c = true) (hrest : ∀ x ∈ rest, isTerminalChar x = false) :
    unterminatedTail (c :: rest) = rest := by
  unfold unterminatedTail
  rw [List.reverse_cons]
  rw [takeWhile_append_of_all _ _ _
    (fun x hx => by simp [hrest x (List.mem_reverse.mp hx)])]
  simp [List.takeWhile_cons, hc]

theorem unterminatedTail_cons_more (c : Char) (rest : List Char)
    (h : ∃ x ∈ rest, isTerminalChar x = true) :
    unterminatedTail (c :: rest) = unterminatedTail rest := by
  unfold unterminatedTail
  rw [List.reverse_cons]
  have hex : ∃ x ∈ rest.reverse, (fun c => !isTerminalChar c) x = false := by
    rcases h with ⟨x, hx, hpx⟩
    exact ⟨x, List.mem_reverse.mpr hx, by simp [hpx]⟩
  rw [takeWhile_append_of_stop _ _ _ hex]

theorem splitLoop_getLast : ∀ (cs : List Char),
    (∃ c ∈ cs, isTerminalChar c = true) →
    ∀ (current : List Char) (flag : Bool),
    trimChars (unterminatedTail cs) ≠ [] →
    (splitLoop cs current flag).getLast?
      = some (String.mk (trimChars (unterminatedTail cs))) := by
  intro cs
  induction cs with
  | nil =>
    rintro ⟨x, hx, _⟩
    exact absurd hx (List.not_mem_nil x)
  | cons c rest ih =>
    intro hex current flag hne
    by_cases hc : isTerminalChar c = true
    · have hstep : splitLoop (c :: rest) current flag
          = splitLoop rest (current ++ [c]) true := by
        simp [splitLoop, hc]
      rw [hstep]
      by_cases hrest : ∃ x ∈ rest, isTerminalChar x = true
      · rw [unterminatedTail_cons_more c rest hrest] at hne ⊢
        exact ih hrest (current ++ [c]) true hne
      · push_neg at hrest
        have hrest2 : ∀ x ∈ rest, isTerminalChar x = false := by
          intro x hx
          cases h2 : isTerminalChar x
          · rfl
          · exact absurd h2 (hrest x hx)
        rw [unterminatedTail_cons_term c rest hc hrest2] at hne ⊢
        cases rest with
        | nil => exact absurd rfl hne
        | cons r rest2 =>
          have hr : isTerminalChar r = false := hrest2 r (List.mem_cons_self r rest2)
          have hstep2 : splitLoop (r :: rest2) (current ++ [c]) true
              = emitSegment (current ++ [c]) ++ splitLoop rest2 [r] false := by
            simp [splitLoop, hr]
          rw [hstep2]
          rw [splitLoop_no_terminal rest2 [r]
            (fun x hx => hrest2 x (List.mem_cons_of_mem r hx))]
          have hemit : emitSegment ([r] ++ rest2)
              = [String.mk (trimChars (r :: rest2))] := by
            unfold emitSegment
            rw [if_neg (by simpa [List.isEmpty_iff] using hne)]
            exact rfl
          rw [hemit]
          exact List.getLast?_concat _
    · have hc2 : isTerminalChar c = false := by
        cases h2 : isTerminalChar c
        · rfl
        · exact absurd h2 hc
      have hex2 : ∃ x ∈ rest, isTerminalChar x = true := by
        rcases hex with ⟨x, hx, hpx⟩
        rcases List.mem_cons.mp hx with rfl | hx2
        · rw [hc2] at hpx
          exact absurd hpx (by simp)
        · exact ⟨x, hx2, hpx⟩
      rw [unterminatedTail_cons_more c rest hex2] at hne ⊢
      cases flag with
      | false =>
        have hstep : splitLoop (c :: rest) current false
            = splitLoop rest (current ++ [c]) false := by
          simp [splitLoop, hc2]
        rw [hstep]
        exact ih hex2 (current ++ [c]) false hne
      | true =>
        have hstep : splitLoop (c :: rest) current true
            = emitSegment current ++ splitLoop rest [c] false := by
          simp [splitLoop, hc2]
        rw [hstep]
        have hlast := ih hex2 [c] false hne
        have hbne : splitLoop rest [c] false ≠ [] := by
          intro h0
          rw [h0] at hlast
          simp at hlast
        rw [List.getLast?_append_of_ne_nil _ hbne]
        exact hlast

/-! ## C7 — sentence splitter guarantees -/

/-- C7: every element of the splitter output is nonempty, trimmed, and contains
a non-whitespace character (so no element is empty or whitespace-only, and runs
of consecutive terminal characters yield no empty sentences); concatenating the
output reconstructs the non-whitespace content of the input in order; and an
input with no terminal character at all is emitted, trimmed, as the single
trailing sentence when it is nonempty after trimming. -/
theorem c7_sentence_splitter (text : String) :
    (∀ s ∈ rawSentences text,
      s ≠ "" ∧ trimString s = s ∧ (s.data.any (fun c => !isRustWhitespace c)) = true)
    ∧ nws (concatChars (rawSentences text)) = nws text.data
    ∧ (trimChars (unterminatedTail text.data) ≠ [] →
        (rawSentences text).getLast?
          = some (String.mk (trimChars (unterminatedTail text.data))))
    ∧ ((∀ c ∈ text.data, isTerminalChar c = false) → trimChars text.data ≠ [] →
        rawSentences text = [String.mk (trimChars text.data)]) := by
  refine ⟨?_, ?_, ?_, ?_⟩
  · intro s hs
    obtain ⟨seg, hmk, hne⟩ := splitLoop_mem text.data [] false s hs
    have hdata : s.data = trimChars seg := by rw [hmk]
    have hnenil : trimChars seg ≠ [] := by
      intro hnil
      rw [hnil] at hne
      simp at hne
    refine ⟨?_, ?_, ?_⟩
    · intro hempty
      rw [hempty] at hdata
      exact hnenil hdata.symm
    · unfold trimString
      rw [hdata, trimChars_idem, ← hdata]
    · cases hcase : trimChars seg with
      | nil => exact absurd hcase hnenil
      | cons b bs =>
        have hb := trimChars_head_not_ws seg b bs hcase
        rw [hdata, hcase]
        simp [List.any_cons, hb]
  · have h := splitLoop_content text.data [] false
    rw [List.nil_append] at h
    exact h
  · intro hne
    by_cases hterm : ∃ c ∈ text.data, isTerminalChar c = true
    · exact splitLoop_getLast text.data hterm [] false hne
    · push_neg at hterm
      have hall : ∀ c ∈ text.data, isTerminalChar c = false := by
        intro x hx
        cases h2 : isTerminalChar x
        · rfl
        · exact absurd h2 (hterm x hx)
      rw [unterminatedTail_no_terminal text.data hall] at hne ⊢
      unfold rawSentences
      rw [splitLoop_no_terminal text.data [] hall]
      unfold emitSegment
      rw [List.nil_append, if_neg (by simpa [List.isEmpty_iff] using hne)]
      rfl
  · intro hnoterm hne
    unfold rawSentences
    rw [splitLoop_no_terminal text.data [] hnoterm]
    unfold emitSegment
    rw [List.nil_append]
    rw [if_neg (by simpa [List.isEmpty_iff] using hne)]

/-- C7 witness: the guarantees evaluated on concrete inputs, including the
trailing unterminated tail of a text whose earlier sentences are terminated. -/
theorem c7_sentence_splitter_witness :
    ("Hello world." ≠ "" ∧ trimString ("Hello world.") = "Hello world."
      ∧ (("Hello world.").data.any (fun c => !isRustWhitespace c)) = true)
    ∧ (rawSentences ("Hi there. And then")).getLast?
        = some (String.mk (trimChars (unterminatedTail ("Hi there. And then").data)))
    ∧ rawSentences (" abc ") = [String.mk (trimChars (" abc ").data)] :=
  ⟨(c7_sentence_splitter ("Hello world. Nice day!")).1 "Hello world." (by decide),
   (c7_sentence_splitter ("Hi there. And then")).2.2.1 (by decide),
   (c7_sentence_splitter (" abc ")).2.2.2 (by decide) (by decide)⟩

/-! ## C10 — concurrency clamps -/

/-- C10: the generation semaphore always receives at least one permit, and the
per-sentence token-audio fan-out limit always lies between 1 and 8 inclusive,
for every caller-supplied tts_concurrency (including 0). -/
theorem c10_concurrency_clamps (tts_concurrency : ℕ) :
    1 ≤ ttsSemPermits tts_concurrency
    ∧ 1 ≤ innerAudioLimit tts_concurrency
    ∧ innerAudioLimit tts_concurrency ≤ 8 := by
  unfold ttsSemPermits innerAudioLimit
  refine ⟨Nat.le_max_right _ _, Nat.le_max_right _ _, ?_⟩
  exact Nat.max_le.mpr ⟨Nat.min_le_right _ _, by norm_num⟩

/-! ## C1 — reuse-cache hits skip annotation -/

/-- C1 counterexample: a sentence text that IS a key of the caller-supplied
reuse cache, but whose cached translation starts with the `$` sentinel, is
re-sent to the AI endpoint (one call, not zero), so the claim as stated fails. -/
theorem c1_counterexample :
    (oldMapLookup [errCachedHi] ("Hi")).isSome = true
    ∧ (processSentence ("a") [errCachedHi] false
        (.ok { translation := "hello", blocks := [] })
        none (fun _ => none) 0 ("Hi")).2 ≠ 0 := by
  decide

/-- C1 (amended): for every sentence text in the reuse cache whose cached
translation does not start with the `$` sentinel, the pipeline performs zero
AI calls for that sentence, returns the cached translation unchanged, and —
with audio pre-caching disabled — returns the cached tokens unchanged. -/
theorem c1_reuse_cache_amended (articleId : String) (oldMap : List Sentence)
    (preCacheAudio : Bool) (aiResult : Except String AiParsedResult)
    (sentAudio : Option String) (blockAudio : ℕ → Option String) (i : ℕ)
    (raw : String) (b : Sentence)
    (hhit : oldMapLookup oldMap raw = some b)
    (hsent : startsWithDollar b.translation = false) :
    (processSentence articleId oldMap preCacheAudio aiResult sentAudio blockAudio i raw).2 = 0
    ∧ (processSentence articleId oldMap preCacheAudio aiResult sentAudio blockAudio
        i raw).1.translation = b.translation
    ∧ (preCacheAudio = false →
        (processSentence articleId oldMap preCacheAudio aiResult sentAudio blockAudio
          i raw).1.blocks = b.blocks) := by
  refine ⟨?_, ?_, ?_⟩
  · simp only [processSentence, resolveSentence, hhit, hsent]
    rfl
  · simp only [processSentence, resolveSentence, hhit, hsent]
    rfl
  · intro hpre
    simp only [processSentence, resolveSentence, hhit, hsent, hpre]
    rfl

/-- C1 witness: the amended statement evaluated on a concrete cache hit. -/
theorem c1_reuse_cache_witness :
    (processSentence ("a") [cachedHi] false (.error ("net down")) none
        (fun _ => none) 0 ("Hi")).2 = 0
    ∧ (processSentence ("a") [cachedHi] false (.error ("net down")) none
        (fun _ => none) 0 ("Hi")).1.translation = cachedHi.translation
    ∧ (processSentence ("a") [cachedHi] false (.error ("net down")) none
        (fun _ => none) 0 ("Hi")).1.blocks = cachedHi.blocks := by
  have h := c1_reuse_cache_amended "a" [cachedHi] false (.error ("net down"))
    none (fun _ => none) 0 "Hi" cachedHi (by decide) (by decide)
  exact ⟨h.1, h.2.1, h.2.2 rfl⟩

/-! ## C3 — per-sentence AI failure recovery -/

/-- C3 counterexample: the sentinel translation attached to a failed sentence
is `"$Translation unavailable due to error."`, with a leading `$`, not the
claimed exact string `"Translation unavailable due to error."`. -/
theorem c3_counterexample :
    (processSentence ("a") [] false (.error ("net down")) none (fun _ => none) 0
      ("Hello world.")).1.translation ≠ "Translation unavailable due to error."
    ∧ (processSentence ("a") [] false (.error ("net down")) none (fun _ => none) 0
      ("Hello world.")).1.translation = "$Translation unavailable due to error." := by
  decide

/-- C3 (amended): when the AI call for a sentence fails (and the sentence is
not served from the reuse cache), the run continues and the resulting Sentence
has exactly one block whose text is the original sentence, whose pos tag is
`"error"`, and whose definition embeds the failure message after `"Error: "`;
the translation is the sentinel `"$Translation unavailable due to error."`
(leading `$` marks it as an error translation). -/
theorem c3_error_placeholder (articleId : String) (oldMap : List Sentence)
    (err : String) (sentAudio : Option String) (blockAudio : ℕ → Option String)
    (i : ℕ) (raw : String)
    (hmiss : oldMapLookup oldMap raw = none) :
    (processSentence articleId oldMap false (.error err) sentAudio blockAudio
        i raw).1.blocks.map (fun b => (b.text, b.pos, b.definition))
      = [(raw, "error", "Error: " ++ err)]
    ∧ (processSentence articleId oldMap false (.error err) sentAudio blockAudio
        i raw).1.translation = "$Translation unavailable due to error." := by
  constructor
  · simp only [processSentence, resolveSentence, hmiss]
    rfl
  · simp only [processSentence, resolveSentence, hmiss]
    rfl

/-- C3 witness: the amended statement evaluated on the spec's own scenario
(one of the two sentences of `"Hello world. Nice day!"`, no reuse cache,
audio disabled, annotation service unreachable). -/
theorem c3_error_placeholder_witness :
    (processSentence ("art") [] false (.error ("connection refused")) none
        (fun _ => none) 0 ("Hello world.")).1.blocks.map
        (fun b => (b.text, b.pos, b.definition))
      = [("Hello world.", "error", "Error: connection refused")]
    ∧ (processSentence ("art") [] false (.error ("connection refused")) none
        (fun _ => none) 0
        ("Hello world.")).1.translation = "$Translation unavailable due to error." :=
  c3_error_placeholder "art" [] "connection refused" none (fun _ => none) 0
    "Hello world." (by decide)

/-! ## C9 — cache hit with audio disabled -/

/-- C9: for every honoured reuse-cache hit processed with audio generation
disabled, the returned Sentence's own audio_path is `none` — even when the
cached Sentence carried one — while the cached blocks (including their
per-token audio_path fields) are carried over unchanged. -/
theorem c9_cache_hit_audio_disabled (articleId : String) (oldMap : List Sentence)
    (aiResult : Except String AiParsedResult) (sentAudio : Option String)
    (blockAudio : ℕ → Option String) (i : ℕ) (raw : String) (b : Sentence)
    (hhit : oldMapLookup oldMap raw = some b)
    (hsent : startsWithDollar b.translation = false) :
    (processSentence articleId oldMap false aiResult sentAudio blockAudio
        i raw).1.audio_path = none
    ∧ (processSentence articleId oldMap false aiResult sentAudio blockAudio
        i raw).1.blocks = b.blocks := by
  constructor
  · rfl
  · simp only [processSentence, resolveSentence, hhit, hsent]
    rfl

/-- C9 witness: a concrete cache hit whose cached Sentence carries both a
sentence-level audio path and a token-level audio path; with audio disabled the
sentence-level path is dropped and the token is carried over unchanged. -/
theorem c9_cache_hit_audio_disabled_witness :
    (processSentence ("a") [cachedHiAudio] false (.error ("x"))
        (some "fresh.mp3") (fun _ => some "f2.mp3") 0 ("Hi")).1.audio_path = none
    ∧ (processSentence ("a") [cachedHiAudio] false (.error ("x"))
        (some "fresh.mp3") (fun _ => some "f2.mp3") 0
        ("Hi")).1.blocks = cachedHiAudio.blocks :=
  c9_cache_hit_audio_disabled "a" [cachedHiAudio] (.error ("x"))
    (some "fresh.mp3") (fun _ => some "f2.mp3") 0 "Hi" cachedHiAudio
    (by decide) (by decide)

/-! ## Sorting and orchestration lemmas for C5 and C6 -/

theorem filterMap_getElem_range {α : Type} (l : List α) :
    (List.range l.length).filterMap (fun i => l[i]?) = l := by
  induction l with
  | nil => rfl
  | cons a as ih =>
    rw [List.length_cons, List.range_succ_eq_map, List.filterMap_cons]
    rw [List.getElem?_cons_zero, List.filterMap_map]
    have hcomp : ((fun i => (a :: as)[i]?) ∘ Nat.succ) = (fun i => as[i]?) := by
      funext i
      simp [Function.comp, List.getElem?_cons_succ]
    rw [hcomp, ih]

theorem reorder_perm (order : List ℕ) (pairs : List (ℕ × Sentence))
    (h : order.Perm (List.range pairs.length)) : (reorder order pairs).Perm pairs := by
  unfold reorder
  have h2 := h.filterMap (fun i => pairs[i]?)
  rw [filterMap_getElem_range] at h2
  exact h2

theorem pairwise_lt_of_sorted_nodup (l : List (ℕ × Sentence))
    (hs : List.Sorted keyLe l) (hn : (l.map Prod.fst).Nodup) :
    l.Pairwise (fun a b => a.1 < b.1) := by
  have hne : l.Pairwise (fun a b : ℕ × Sentence => a.1 ≠ b.1) := by
    have := hn
    rw [List.Nodup, List.pairwise_map] at this
    exact this
  have hand := hs.and hne
  exact hand.imp (fun hab => Nat.lt_of_le_of_ne hab.1 hab.2)

theorem eq_of_perm_of_pairwise_lt : ∀ {l m : List (ℕ × Sentence)}, l.Perm m →
    l.Pairwise (fun a b => a.1 < b.1) → m.Pairwise (fun a b => a.1 < b.1) → l = m := by
  intro l
  induction l with
  | nil =>
    intro m hp _ _
    exact hp.nil_eq
  | cons a l2 ih =>
    intro m hp hl hm
    cases m with
    | nil => exact absurd hp.symm.nil_eq (by simp)
    | cons b m2 =>
      by_cases hab : a = b
      · subst hab
        have hp2 := hp.cons_inv
        rw [ih hp2 (List.pairwise_cons.mp hl).2 (List.pairwise_cons.mp hm).2]
      · exfalso
        have ham : a ∈ b :: m2 := hp.mem_iff.mp (List.mem_cons_self a l2)
        have ham2 : a ∈ m2 := by
          rcases List.mem_cons.mp ham with h1 | h1
          · exact absurd h1 hab
          · exact h1
        have hbm : b ∈ a :: l2 := hp.symm.mem_iff.mp (List.mem_cons_self b m2)
        have hbm2 : b ∈ l2 := by
          rcases List.mem_cons.mp hbm with h1 | h1
          · exact absurd h1.symm hab
          · exact h1
        have h1 : b.1 < a.1 := (List.pairwise_cons.mp hm).1 a ham2
        have h2 : a.1 < b.1 := (List.pairwise_cons.mp hl).1 b hbm2
        omega

theorem enum_pairs_pairwise_lt (g : ℕ → String → Sentence) (raws : List String) :
    (raws.enum.map (fun p => (p.1, g p.1 p.2))).Pairwise
      (fun a b : ℕ × Sentence => a.1 < b.1) := by
  rw [List.pairwise_map]
  have h2 : (raws.enum.map Prod.fst).Pairwise (· < ·) := by
    rw [List.enum_map_fst]
    exact List.pairwise_lt_range _
  rw [List.pairwise_map] at h2
  exact h2

theorem sortByKey_eq_of_perm (l target : List (ℕ × Sentence)) (hperm : l.Perm target)
    (htarget : target.Pairwise (fun a b => a.1 < b.1)) : sortByKey l = target := by
  have hp1 : (sortByKey l).Perm l := List.perm_insertionSort keyLe l
  have hs : List.Sorted keyLe (sortByKey l) := List.sorted_insertionSort keyLe l
  have hperm2 : (sortByKey l).Perm target := hp1.trans hperm
  have hnt : (target.map Prod.fst).Nodup := by
    rw [List.Nodup, List.pairwise_map]
    exact htarget.imp (fun hab => Nat.ne_of_lt hab)
  have hn : ((sortByKey l).map Prod.fst).Nodup := ((hperm2.map Prod.fst).nodup_iff).mpr hnt
  exact eq_of_perm_of_pairwise_lt hperm2 (pairwise_lt_of_sorted_nodup _ hs hn) htarget

/-- Central orchestration lemma: whenever the completion order is a permutation
of the sentence indices, `parse_text` with a nonempty API key returns exactly
the per-sentence results in original input order. -/
theorem parseTextModel_ok (id text language api_key api_url model_name : String)
    (concurrency : ℕ) (pre_cache_audio : Bool) (tts_concurrency : ℕ)
    (old_sentences : Option (List Sentence))
    (aiResult : ℕ → Except String AiParsedResult)
    (sentAudio : ℕ → Option String) (blockAudio : ℕ → ℕ → Option String)
    (order : List ℕ)
    (hkey : api_key ≠ "")
    (hord : order.Perm (List.range (rawSentences text).length)) :
    parseTextModel id text language api_key api_url model_name concurrency
        pre_cache_audio tts_concurrency old_sentences aiResult sentAudio blockAudio order
      = .ok (orderedResults id text pre_cache_audio (old_sentences.getD [])
          aiResult sentAudio blockAudio) := by
  unfold parseTextModel
  rw [if_neg hkey]
  have hlen : ((rawSentences text).enum.map (fun p =>
      (p.1, (processSentence id (old_sentences.getD []) pre_cache_audio (aiResult p.1)
        (sentAudio p.1) (blockAudio p.1) p.1 p.2).1))).length
      = (rawSentences text).length := by
    rw [List.length_map, List.enum_length]
  have hperm := reorder_perm order _ (by rw [hlen]; exact hord)
  have htarget := enum_pairs_pairwise_lt
    (fun i raw => (processSentence id (old_sentences.getD []) pre_cache_audio (aiResult i)
      (sentAudio i) (blockAudio i) i raw).1) (rawSentences text)
  rw [sortByKey_eq_of_perm _ _ hperm htarget]
  unfold orderedResults
  rw [List.map_map]
  rfl

theorem orderedResults_map_original (id text : String) (pre_cache_audio : Bool)
    (oldMap : List Sentence) (aiResult : ℕ → Except String AiParsedResult)
    (sentAudio : ℕ → Option String) (blockAudio : ℕ → ℕ → Option String) :
    (orderedResults id text pre_cache_audio oldMap aiResult sentAudio blockAudio).map
      Sentence.original = rawSentences text := by
  unfold orderedResults
  rw [List.map_map]
  have hcomp : (Sentence.original ∘ fun p : ℕ × String =>
      (processSentence id oldMap pre_cache_audio (aiResult p.1) (sentAudio p.1)
        (blockAudio p.1) p.1 p.2).1) = Prod.snd := by
    funext p
    rfl
  rw [hcomp]
  exact List.enum_map_snd _

/-! ## C5 — output order matches input order -/

/-- C5: for every input text and every completion order that is a permutation
of the sentence indices (tasks complete in arbitrary order), the returned
Sentence sequence is the per-sentence results sorted by original index, and its
i-th element's `original` field is the i-th splitter sentence. -/
theorem c5_output_order (id text language api_key api_url model_name : String)
    (concurrency : ℕ) (pre_cache_audio : Bool) (tts_concurrency : ℕ)
    (old_sentences : Option (List Sentence))
    (aiResult : ℕ → Except String AiParsedResult)
    (sentAudio : ℕ → Option String) (blockAudio : ℕ → ℕ → Option String)
    (order : List ℕ)
    (hkey : api_key ≠ "")
    (hord : order.Perm (List.range (rawSentences text).length)) :
    parseTextModel id text language api_key api_url model_name concurrency
        pre_cache_audio tts_concurrency old_sentences aiResult sentAudio blockAudio order
      = .ok (orderedResults id text pre_cache_audio (old_sentences.getD [])
          aiResult sentAudio blockAudio)
    ∧ (orderedResults id text pre_cache_audio (old_sentences.getD [])
        aiResult sentAudio blockAudio).map Sentence.original = rawSentences text :=
  ⟨parseTextModel_ok id text language api_key api_url model_name concurrency
      pre_cache_audio tts_concurrency old_sentences aiResult sentAudio blockAudio
      order hkey hord,
   orderedResults_map_original id text pre_cache_audio (old_sentences.getD [])
      aiResult sentAudio blockAudio⟩

/-- C5 witness: a two-sentence input whose tasks complete in reversed order
still yields the index-sorted output. -/
theorem c5_output_order_witness :
    parseTextModel "art" ("Hello world. Nice day!") "EN" "key" "url" "model"
        4 false 2 none (fun _ => .error ("down")) (fun _ => none)
        (fun _ _ => none) [1, 0]
      = .ok (orderedResults "art" ("Hello world. Nice day!") false []
          (fun _ => .error ("down")) (fun _ => none) (fun _ _ => none))
    ∧ (orderedResults "art" ("Hello world. Nice day!") false []
        (fun _ => .error ("down")) (fun _ => none) (fun _ _ => none)).map
        Sentence.original = rawSentences ("Hello world. Nice day!") := by
  have h := c5_output_order "art" "Hello world. Nice day!" "EN" "key" "url" "model"
    4 false 2 none (fun _ => .error ("down")) (fun _ => none) (fun _ _ => none)
    [1, 0] (by decide) (by decide)
  exact h

/-! ## C6 — whole-run failure only for missing credentials -/

/-- C6: the run fails if and only if the API key is empty: with an empty key it
returns the credentials error immediately; with any nonempty key and any
per-sentence AI outcomes (including failures) and any audio outcomes (including
missing audio) it returns Ok with exactly one Sentence per split sentence. -/
theorem c6_whole_run_failure_iff (id text language api_key api_url model_name : String)
    (concurrency : ℕ) (pre_cache_audio : Bool) (tts_concurrency : ℕ)
    (old_sentences : Option (List Sentence))
    (aiResult : ℕ → Except String AiParsedResult)
    (sentAudio : ℕ → Option String) (blockAudio : ℕ → ℕ → Option String)
    (order : List ℕ)
    (hord : order.Perm (List.range (rawSentences text).length)) :
    parseTextModel id text language "" api_url model_name concurrency
        pre_cache_audio tts_concurrency old_sentences aiResult sentAudio blockAudio order
      = .error "API Key is missing"
    ∧ (api_key ≠ "" →
        ∃ l, parseTextModel id text language api_key api_url model_name concurrency
            pre_cache_audio tts_concurrency old_sentences aiResult sentAudio
            blockAudio order = .ok l
          ∧ l.length = (rawSentences text).length) := by
  constructor
  · unfold parseTextModel
    rw [if_pos rfl]
  · intro hkey
    refine ⟨orderedResults id text pre_cache_audio (old_sentences.getD [])
      aiResult sentAudio blockAudio, ?_, ?_⟩
    · exact parseTextModel_ok id text language api_key api_url model_name concurrency
        pre_cache_audio tts_concurrency old_sentences aiResult sentAudio blockAudio
        order hkey hord
    · unfold orderedResults
      rw [List.length_map, List.enum_length]

/-- C6 witness: with the annotation service unreachable and no audio, an empty
key fails the run while a nonempty key yields one Sentence per sentence. -/
theorem c6_whole_run_failure_iff_witness :
    parseTextModel "art" ("Hello world. Nice day!") "EN" "" "url" "model"
        4 false 2 none (fun _ => .error ("down")) (fun _ => none)
        (fun _ _ => none) [1, 0]
      = .error "API Key is missing"
    ∧ ∃ l, parseTextModel "art" ("Hello world. Nice day!") "EN" "key" "url" "model"
          4 false 2 none (fun _ => .error ("down")) (fun _ => none)
          (fun _ _ => none) [1, 0] = .ok l
        ∧ l.length = (rawSentences ("Hello world. Nice day!")).length := by
  have h := c6_whole_run_failure_iff "art" "Hello world. Nice day!" "EN" "key" "url"
    "model" 4 false 2 none (fun _ => .error ("down")) (fun _ => none)
    (fun _ _ => none) [1, 0] (by decide)
  exact ⟨h.1, h.2 (by decide)⟩

/-! ## C8 — progress percent and the f32 arithmetic -/

theorem log2_eq_of_bounds {q : ℚ} {e : ℤ} (hr : 0 < q) (h1 : (2:ℚ) ^ e ≤ q)
    (h2 : q < (2:ℚ) ^ (e + 1)) : Int.log 2 q = e := by
  have hb : 1 < 2 := one_lt_two
  have hle : e ≤ Int.log 2 q := (Int.zpow_le_iff_le_log hb hr).mp h1
  have hlt : Int.log 2 q < e + 1 := (Int.lt_zpow_iff_log_lt hb hr).mp h2
  omega

theorem roundHalfEven_of_lt (q : ℚ) (n : ℤ) (hfl : ⌊q⌋ = n)
    (hfr : q - (n:ℚ) < 1/2) : roundHalfEven q = n := by
  unfold roundHalfEven
  rw [hfl, if_pos hfr]

theorem roundHalfEven_ge_floor (q : ℚ) : ⌊q⌋ ≤ roundHalfEven q := by
  unfold roundHalfEven
  split_ifs <;> omega

theorem roundF32_eval (q : ℚ) (e m : ℤ) (hq : 0 < q)
    (h1 : (2:ℚ) ^ e ≤ q) (h2 : q < (2:ℚ) ^ (e + 1))
    (hm : roundHalfEven (q / 2 ^ (e - 23)) = m) :
    roundF32 q = (m:ℚ) * 2 ^ (e - 23) := by
  unfold roundF32
  rw [if_neg (not_le.mpr hq), log2_eq_of_bounds hq h1 h2, hm]

theorem roundF32_one : roundF32 (1:ℚ) = 1 := by
  have harg : (1:ℚ) / 2 ^ ((0:ℤ) - 23) = 8388608 := by
    rw [show ((0:ℤ) - 23) = (-23:ℤ) by norm_num, zpow_neg]
    norm_num
  have hm : roundHalfEven ((1:ℚ) / 2 ^ ((0:ℤ) - 23)) = 8388608 := by
    rw [harg]
    exact roundHalfEven_of_lt _ 8388608 (by norm_num) (by norm_num)
  have h := roundF32_eval 1 0 8388608 (by norm_num) (by norm_num) (by norm_num) hm
  rw [h, show ((0:ℤ) - 23) = (-23:ℤ) by norm_num, zpow_neg]
  norm_num

theorem roundF32_53 : roundF32 (53:ℚ) = 53 := by
  have harg : (53:ℚ) / 2 ^ ((5:ℤ) - 23) = 13893632 := by
    rw [show ((5:ℤ) - 23) = (-18:ℤ) by norm_num, zpow_neg]
    norm_num
  have hm : roundHalfEven ((53:ℚ) / 2 ^ ((5:ℤ) - 23)) = 13893632 := by
    rw [harg]
    exact roundHalfEven_of_lt _ 13893632 (by norm_num) (by norm_num)
  have h := roundF32_eval 53 5 13893632 (by norm_num) (by norm_num) (by norm_num) hm
  rw [h, show ((5:ℤ) - 23) = (-18:ℤ) by norm_num, zpow_neg]
  norm_num

theorem roundF32_100 : roundF32 (100:ℚ) = 100 := by
  have harg : (100:ℚ) / 2 ^ ((6:ℤ) - 23) = 13107200 := by
    rw [show ((6:ℤ) - 23) = (-17:ℤ) by norm_num, zpow_neg]
    norm_num
  have hm : roundHalfEven ((100:ℚ) / 2 ^ ((6:ℤ) - 23)) = 13107200 := by
    rw [harg]
    exact roundHalfEven_of_lt _ 13107200 (by norm_num) (by norm_num)
  have h := roundF32_eval 100 6 13107200 (by norm_num) (by norm_num) (by norm_num) hm
  rw [h, show ((6:ℤ) - 23) = (-17:ℤ) by norm_num, zpow_neg]
  norm_num

theorem roundF32_53_div_100 : roundF32 ((53:ℚ) / 100) = 2222981 / 4194304 := by
  have harg : (53:ℚ) / 100 / 2 ^ ((-1:ℤ) - 23) = 222298112 / 25 := by
    rw [show ((-1:ℤ) - 23) = (-24:ℤ) by norm_num, zpow_neg]
    norm_num
  have hm : roundHalfEven ((53:ℚ) / 100 / 2 ^ ((-1:ℤ) - 23)) = 8891924 := by
    rw [harg]
    exact roundHalfEven_of_lt _ 8891924 (by norm_num) (by norm_num)
  have h1 : (2:ℚ) ^ (-1:ℤ) ≤ 53 / 100 := by
    rw [zpow_neg]
    norm_num
  have h2 : (53:ℚ) / 100 < 2 ^ ((-1:ℤ) + 1) := by
    rw [show ((-1:ℤ) + 1) = (0:ℤ) by norm_num]
    norm_num
  have h := roundF32_eval (53/100) (-1) 8891924 (by norm_num) h1 h2 hm
  rw [h, show ((-1:ℤ) - 23) = (-24:ℤ) by norm_num, zpow_neg]
  norm_num

theorem roundF32_percent_product :
    roundF32 ((2222981:ℚ) / 4194304 * 100) = 13893631 / 262144 := by
  have harg : (2222981:ℚ) / 4194304 * 100 / 2 ^ ((5:ℤ) - 23) = 55574525 / 4 := by
    rw [show ((5:ℤ) - 23) = (-18:ℤ) by norm_num, zpow_neg]
    norm_num
  have hm : roundHalfEven ((2222981:ℚ) / 4194304 * 100 / 2 ^ ((5:ℤ) - 23)) = 13893631 := by
    rw [harg]
    exact roundHalfEven_of_lt _ 13893631 (by norm_num) (by norm_num)
  have h := roundF32_eval (2222981/4194304*100) 5 13893631 (by norm_num) (by norm_num)
    (by norm_num) hm
  rw [h, show ((5:ℤ) - 23) = (-18:ℤ) by norm_num, zpow_neg]
  norm_num

theorem one_le_roundF32 (q : ℚ) (hq : 1 ≤ q) : 1 ≤ roundF32 q := by
  have hq0 : 0 < q := by linarith
  unfold roundF32
  rw [if_neg (not_le.mpr hq0)]
  have hb : (1:ℕ) < 2 := one_lt_two
  have he0 : 0 ≤ Int.log 2 q :=
    (Int.zpow_le_iff_le_log hb hq0).mp (by rw [zpow_zero]; exact hq)
  have hlow : (2:ℚ) ^ Int.log 2 q ≤ q := Int.zpow_log_le_self hb hq0
  have hscale : (0:ℚ) < 2 ^ (Int.log 2 q - 23) := by positivity
  have hcast : ((2 ^ 23 : ℤ) : ℚ) = (2:ℚ) ^ (23:ℤ) := by norm_num
  have hdiv : ((2 ^ 23 : ℤ) : ℚ) ≤ q / 2 ^ (Int.log 2 q - 23) := by
    rw [le_div_iff₀ hscale, hcast, ← zpow_add₀ (by norm_num : (2:ℚ) ≠ 0)]
    rw [show (23:ℤ) + (Int.log 2 q - 23) = Int.log 2 q by ring]
    exact hlow
  have hm : (2 ^ 23 : ℤ) ≤ roundHalfEven (q / 2 ^ (Int.log 2 q - 23)) :=
    le_trans (Int.le_floor.mpr hdiv) (roundHalfEven_ge_floor _)
  have hge : ((2 ^ 23 : ℤ) : ℚ) * 2 ^ (Int.log 2 q - 23)
      ≤ (roundHalfEven (q / 2 ^ (Int.log 2 q - 23)) : ℚ) * 2 ^ (Int.log 2 q - 23) :=
    mul_le_mul_of_nonneg_right (by exact_mod_cast hm) (le_of_lt hscale)
  have heq : ((2 ^ 23 : ℤ) : ℚ) * 2 ^ (Int.log 2 q - 23) = 2 ^ Int.log 2 q := by
    rw [hcast, ← zpow_add₀ (by norm_num : (2:ℚ) ≠ 0)]
    congr 1
    ring
  have hone : (1:ℚ) ≤ 2 ^ Int.log 2 q := one_le_zpow₀ (by norm_num) he0
  rw [heq] at hge
  linarith

/-- C8 counterexample: at completed = 53, total = 100 the emitted percent is
52 while floor(100 × 53 / 100) = 53, so percent is not the exact truncated
ratio: the f32 division rounds 0.53 down to 8891924/2^24 and the f32 product
with 100 lands just below 53, which the u32 cast truncates to 52. -/
theorem c8_counterexample :
    progressPercent 53 100 = 52 ∧ 100 * 53 / 100 = 53 := by
  constructor
  · unfold progressPercent
    rw [show ((53:ℕ):ℚ) = 53 by norm_num, show ((100:ℕ):ℚ) = 100 by norm_num]
    rw [roundF32_53, roundF32_100, roundF32_53_div_100, roundF32_percent_product]
    rw [show ⌊(13893631:ℚ) / 262144⌋ = 52 by norm_num]
    rfl
  · norm_num

/-- C8 (amended): the emitted percent is the u32 truncation of the f32
expression `(current as f32 / total as f32) * 100.0`, which can fall one below
`floor(100 × current / total)`; the final progress event, where the completed
count equals the total, still always carries percent = 100. -/
theorem c8_final_percent (t : ℕ) (ht : 1 ≤ t) : progressPercent t t = 100 := by
  unfold progressPercent
  have hx : 1 ≤ roundF32 (t:ℚ) := one_le_roundF32 _ (by exact_mod_cast ht)
  have hxx : roundF32 (t:ℚ) / roundF32 (t:ℚ) = 1 := div_self (by linarith)
  rw [hxx, roundF32_one, one_mul, roundF32_100]
  rw [show ⌊(100:ℚ)⌋ = 100 by norm_num]
  rfl

/-- C8 witness: the final progress event of a seven-sentence run reports 100. -/
theorem c8_final_percent_witness : progressPercent 7 7 = 100 :=
  c8_final_percent 7 (by norm_num)

/-! ## C2 — lock-table entry lifetime -/

/-- C2 counterexample: an invocation that completes because the file already
existed returns its path but leaves the per-key lock-table entry in place —
`tts_locks.remove` (line 184) sits only on the fresh-generation success path,
after the early return at line 165. -/
theorem c2_counterexample :
    (runSched (fun _ => true) ("p") true 1 [0, 0, 0]).task0.pc = Pc.done
    ∧ (runSched (fun _ => true) ("p") true 1 [0, 0, 0]).task0.result
        = some (Except.ok ("p"))
    ∧ (runSched (fun _ => true) ("p") true 1 [0, 0, 0]).table ≠ none := by
  decide

/-- C2 (amended): after a completed solo invocation the per-key mutex is always
released, but the lock-table entry is removed exactly when the invocation
freshly and successfully generated the file; on the already-exists path and on
the synthesis-failure path the entry remains in the table. Stated for every
initial file state `f`, synthesis outcome `o`, semaphore size `p + 1` and
target path. -/
theorem c2_lock_table_amended (f o : Bool) (p : ℕ) (path : String) :
    (runSched (fun _ => o) path f (p + 1) [0, 0, 0, 0, 0]).task0.pc = Pc.done
    ∧ (runSched (fun _ => o) path f (p + 1) [0, 0, 0, 0, 0]).h0 = none
    ∧ ((runSched (fun _ => o) path f (p + 1) [0, 0, 0, 0, 0]).table = none
        ↔ (f = false ∧ o = true)) := by
  cases f <;> cases o <;>
    simp [runSched, stepTask, initCfg, Cfg.task, Cfg.setTask, Cfg.holderAt,
      Cfg.setHolder]

/-! ## C4 — per-key deduplication of audio generation -/

theorem reach_step (path : String) (c : Cfg) (t : Fin 2)
    (h : ReachSet path c) : ReachSet path (stepTask (fun _ => true) path t c) := by
  obtain ⟨tb, hv0, hv1, cr, pm, fl, nf, sc, tk0, tk1⟩ := c
  fin_cases t
  · rcases h with h | h | h | h | h | h | h | h | h | h | h | h | h | h | h | h | h | h | h | h | h | h | h | h | h | h | h | h | h | h
    · obtain ⟨rfl, rfl, rfl, rfl, rfl, rfl, rfl, rfl, rfl⟩ := h
      exact Or.inr (Or.inl ⟨rfl, rfl, rfl, rfl, rfl, rfl, rfl, rfl, rfl⟩)
    · obtain ⟨rfl, rfl, rfl, rfl, rfl, rfl, rfl, rfl, rfl⟩ := h
      exact Or.inr (Or.inr (Or.inr (Or.inl ⟨rfl, rfl, rfl, rfl, rfl, rfl, rfl, rfl, rfl⟩)))
    · obtain ⟨rfl, rfl, rfl, rfl, rfl, rfl, rfl, rfl, rfl⟩ := h
      exact Or.inr (Or.inr (Or.inr (Or.inr (Or.inl ⟨rfl, rfl, rfl, rfl, rfl, rfl, rfl, rfl, rfl⟩))))
    · obtain ⟨rfl, rfl, rfl, rfl, rfl, rfl, rfl, rfl, rfl⟩ := h
      exact Or.inr (Or.inr (Or.inr (Or.inr (Or.inr (Or.inr (Or.inl ⟨rfl, rfl, rfl, rfl, rfl, rfl, rfl, rfl, rfl⟩))))))
    · obtain ⟨rfl, rfl, rfl, rfl, rfl, rfl, rfl, rfl, rfl⟩ := h
      exact Or.inr (Or.inr (Or.inr (Or.inr (Or.inr (Or.inr (Or.inr (Or.inl ⟨rfl, rfl, rfl, rfl, rfl, rfl, rfl, rfl, rfl⟩)))))))
    · obtain ⟨rfl, rfl, rfl, rfl, rfl, rfl, rfl, rfl, rfl⟩ := h
      exact Or.inr (Or.inr (Or.inr (Or.inr (Or.inr (Or.inr (Or.inr (Or.inr (Or.inl ⟨rfl, rfl, rfl, rfl, rfl, rfl, rfl, rfl, rfl⟩))))))))
    · obtain ⟨rfl, rfl, rfl, rfl, rfl, rfl, rfl, rfl, rfl⟩ := h
      cases pm with
      | zero => exact Or.inr (Or.inr (Or.inr (Or.inr (Or.inr (Or.inr (Or.inl ⟨rfl, rfl, rfl, rfl, rfl, rfl, rfl, rfl, rfl⟩))))))
      | succ pm2 => exact Or.inr (Or.inr (Or.inr (Or.inr (Or.inr (Or.inr (Or.inr (Or.inr (Or.inr (Or.inr (Or.inl ⟨rfl, rfl, rfl, rfl, rfl, rfl, rfl, rfl, rfl⟩))))))))))
    · obtain ⟨rfl, rfl, rfl, rfl, rfl, rfl, rfl, rfl, rfl⟩ := h
      exact Or.inr (Or.inr (Or.inr (Or.inr (Or.inr (Or.inr (Or.inr (Or.inr (Or.inr (Or.inr (Or.inr (Or.inl ⟨rfl, rfl, rfl, rfl, rfl, rfl, rfl, rfl, rfl⟩)))))))))))
    · obtain ⟨rfl, rfl, rfl, rfl, rfl, rfl, rfl, rfl, rfl⟩ := h
      exact Or.inr (Or.inr (Or.inr (Or.inr (Or.inr (Or.inr (Or.inr (Or.inr (Or.inl ⟨rfl, rfl, rfl, rfl, rfl, rfl, rfl, rfl, rfl⟩))))))))
    · obtain ⟨rfl, rfl, rfl, rfl, rfl, rfl, rfl, rfl, rfl⟩ := h
      exact Or.inr (Or.inr (Or.inr (Or.inr (Or.inr (Or.inr (Or.inr (Or.inr (Or.inr (Or.inr (Or.inr (Or.inr (Or.inl ⟨rfl, rfl, rfl, rfl, rfl, rfl, rfl, rfl, rfl⟩))))))))))))
    · obtain ⟨rfl, rfl, rfl, rfl, rfl, rfl, rfl, rfl, rfl⟩ := h
      exact Or.inr (Or.inr (Or.inr (Or.inr (Or.inr (Or.inr (Or.inr (Or.inr (Or.inr (Or.inr (Or.inr (Or.inr (Or.inr (Or.inr (Or.inl ⟨rfl, rfl, rfl, rfl, rfl, rfl, rfl, rfl, rfl⟩))))))))))))))
    · obtain ⟨rfl, rfl, rfl, rfl, rfl, rfl, rfl, rfl, rfl⟩ := h
      cases pm with
      | zero => exact Or.inr (Or.inr (Or.inr (Or.inr (Or.inr (Or.inr (Or.inr (Or.inr (Or.inr (Or.inr (Or.inr (Or.inl ⟨rfl, rfl, rfl, rfl, rfl, rfl, rfl, rfl, rfl⟩)))))))))))
      | succ pm2 => exact Or.inr (Or.inr (Or.inr (Or.inr (Or.inr (Or.inr (Or.inr (Or.inr (Or.inr (Or.inr (Or.inr (Or.inr (Or.inr (Or.inr (Or.inr (Or.inl ⟨rfl, rfl, rfl, rfl, rfl, rfl, rfl, rfl, rfl⟩)))))))))))))))
    · obtain ⟨rfl, rfl, rfl, rfl, rfl, rfl, rfl, rfl, rfl⟩ := h
      exact Or.inr (Or.inr (Or.inr (Or.inr (Or.inr (Or.inr (Or.inr (Or.inr (Or.inr (Or.inr (Or.inr (Or.inr (Or.inl ⟨rfl, rfl, rfl, rfl, rfl, rfl, rfl, rfl, rfl⟩))))))))))))
    · obtain ⟨rfl, rfl, rfl, rfl, rfl, rfl, rfl, rfl, rfl⟩ := h
      exact Or.inr (Or.inr (Or.inr (Or.inr (Or.inr (Or.inr (Or.inr (Or.inr (Or.inr (Or.inr (Or.inr (Or.inr (Or.inr (Or.inr (Or.inr (Or.inr (Or.inl ⟨rfl, rfl, rfl, rfl, rfl, rfl, rfl, rfl, rfl⟩))))))))))))))))
    · obtain ⟨rfl, rfl, rfl, rfl, rfl, rfl, rfl, rfl, rfl⟩ := h
      exact Or.inr (Or.inr (Or.inr (Or.inr (Or.inr (Or.inr (Or.inr (Or.inr (Or.inr (Or.inr (Or.inr (Or.inr (Or.inr (Or.inr (Or.inl ⟨rfl, rfl, rfl, rfl, rfl, rfl, rfl, rfl, rfl⟩))))))))))))))
    · obtain ⟨rfl, rfl, rfl, rfl, rfl, rfl, rfl, rfl, rfl⟩ := h
      exact Or.inr (Or.inr (Or.inr (Or.inr (Or.inr (Or.inr (Or.inr (Or.inr (Or.inr (Or.inr (Or.inr (Or.inr (Or.inr (Or.inr (Or.inr (Or.inr (Or.inr (Or.inr (Or.inr (Or.inl ⟨rfl, rfl, rfl, rfl, rfl, rfl, rfl, rfl, rfl⟩)))))))))))))))))))
    · obtain ⟨rfl, rfl, rfl, rfl, rfl, rfl, rfl, rfl, rfl⟩ := h
      exact Or.inr (Or.inr (Or.inr (Or.inr (Or.inr (Or.inr (Or.inr (Or.inr (Or.inr (Or.inr (Or.inr (Or.inr (Or.inr (Or.inr (Or.inr (Or.inr (Or.inl ⟨rfl, rfl, rfl, rfl, rfl, rfl, rfl, rfl, rfl⟩))))))))))))))))
    · obtain ⟨rfl, rfl, rfl, rfl, rfl, rfl, rfl, rfl, rfl⟩ := h
      exact Or.inr (Or.inr (Or.inr (Or.inr (Or.inr (Or.inr (Or.inr (Or.inr (Or.inr (Or.inr (Or.inr (Or.inr (Or.inr (Or.inr (Or.inr (Or.inr (Or.inr (Or.inr (Or.inr (Or.inr (Or.inr (Or.inl ⟨rfl, rfl, rfl, rfl, rfl, rfl, rfl, rfl, rfl⟩)))))))))))))))))))))
    · obtain ⟨rfl, rfl, rfl, rfl, rfl, rfl, rfl, rfl, rfl⟩ := h
      exact Or.inr (Or.inr (Or.inr (Or.inr (Or.inr (Or.inr (Or.inr (Or.inr (Or.inr (Or.inr (Or.inr (Or.inr (Or.inr (Or.inr (Or.inr (Or.inr (Or.inr (Or.inr (Or.inl ⟨rfl, rfl, rfl, rfl, rfl, rfl, rfl, rfl, rfl⟩))))))))))))))))))
    · obtain ⟨rfl, rfl, rfl, rfl, rfl, rfl, rfl, rfl, rfl⟩ := h
      exact Or.inr (Or.inr (Or.inr (Or.inr (Or.inr (Or.inr (Or.inr (Or.inr (Or.inr (Or.inr (Or.inr (Or.inr (Or.inr (Or.inr (Or.inr (Or.inr (Or.inr (Or.inr (Or.inr (Or.inl ⟨rfl, rfl, rfl, rfl, rfl, rfl, rfl, rfl, rfl⟩)))))))))))))))))))
    · obtain ⟨rfl, rfl, rfl, rfl, rfl, rfl, rfl, rfl, rfl⟩ := h
      exact Or.inr (Or.inr (Or.inr (Or.inr (Or.inr (Or.inr (Or.inr (Or.inr (Or.inr (Or.inr (Or.inr (Or.inr (Or.inr (Or.inr (Or.inr (Or.inr (Or.inr (Or.inr (Or.inr (Or.inr (Or.inr (Or.inr (Or.inr (Or.inr (Or.inl ⟨rfl, rfl, rfl, rfl, rfl, rfl, rfl, rfl, rfl⟩))))))))))))))))))))))))
    · obtain ⟨rfl, rfl, rfl, rfl, rfl, rfl, rfl, rfl, rfl⟩ := h
      exact Or.inr (Or.inr (Or.inr (Or.inr (Or.inr (Or.inr (Or.inr (Or.inr (Or.inr (Or.inr (Or.inr (Or.inr (Or.inr (Or.inr (Or.inr (Or.inr (Or.inr (Or.inr (Or.inr (Or.inr (Or.inr (Or.inr (Or.inr (Or.inr (Or.inr (Or.inl ⟨rfl, rfl, rfl, rfl, rfl, rfl, rfl, rfl, rfl⟩)))))))))))))))))))))))))
    · obtain ⟨rfl, rfl, rfl, rfl, rfl, rfl, rfl, rfl, rfl⟩ := h
      exact Or.inr (Or.inr (Or.inr (Or.inr (Or.inr (Or.inr (Or.inr (Or.inr (Or.inr (Or.inr (Or.inr (Or.inr (Or.inr (Or.inr (Or.inr (Or.inr (Or.inr (Or.inr (Or.inr (Or.inr (Or.inr (Or.inr (Or.inl ⟨rfl, rfl, rfl, rfl, rfl, rfl, rfl, rfl, rfl⟩))))))))))))))))))))))
    · obtain ⟨rfl, rfl, rfl, rfl, rfl, rfl, rfl, rfl, rfl⟩ := h
      exact Or.inr (Or.inr (Or.inr (Or.inr (Or.inr (Or.inr (Or.inr (Or.inr (Or.inr (Or.inr (Or.inr (Or.inr (Or.inr (Or.inr (Or.inr (Or.inr (Or.inr (Or.inr (Or.inr (Or.inr (Or.inr (Or.inr (Or.inr (Or.inl ⟨rfl, rfl, rfl, rfl, rfl, rfl, rfl, rfl, rfl⟩)))))))))))))))))))))))
    · obtain ⟨rfl, rfl, rfl, rfl, rfl, rfl, rfl, rfl, rfl⟩ := h
      exact Or.inr (Or.inr (Or.inr (Or.inr (Or.inr (Or.inr (Or.inr (Or.inr (Or.inr (Or.inr (Or.inr (Or.inr (Or.inr (Or.inr (Or.inr (Or.inr (Or.inr (Or.inr (Or.inr (Or.inr (Or.inr (Or.inr (Or.inr (Or.inr (Or.inr (Or.inr (Or.inr (Or.inr (Or.inl ⟨rfl, rfl, rfl, rfl, rfl, rfl, rfl, rfl, rfl⟩))))))))))))))))))))))))))))
    · obtain ⟨rfl, rfl, rfl, rfl, rfl, rfl, rfl, rfl, rfl⟩ := h
      exact Or.inr (Or.inr (Or.inr (Or.inr (Or.inr (Or.inr (Or.inr (Or.inr (Or.inr (Or.inr (Or.inr (Or.inr (Or.inr (Or.inr (Or.inr (Or.inr (Or.inr (Or.inr (Or.inr (Or.inr (Or.inr (Or.inr (Or.inr (Or.inr (Or.inr (Or.inr (Or.inr (Or.inr (Or.inr (⟨rfl, rfl, rfl, rfl, rfl, rfl, rfl, rfl, rfl⟩)))))))))))))))))))))))))))))
    · obtain ⟨rfl, rfl, rfl, rfl, rfl, rfl, rfl, rfl, rfl⟩ := h
      exact Or.inr (Or.inr (Or.inr (Or.inr (Or.inr (Or.inr (Or.inr (Or.inr (Or.inr (Or.inr (Or.inr (Or.inr (Or.inr (Or.inr (Or.inr (Or.inr (Or.inr (Or.inr (Or.inr (Or.inr (Or.inr (Or.inr (Or.inr (Or.inr (Or.inr (Or.inr (Or.inl ⟨rfl, rfl, rfl, rfl, rfl, rfl, rfl, rfl, rfl⟩))))))))))))))))))))))))))
    · obtain ⟨rfl, rfl, rfl, rfl, rfl, rfl, rfl, rfl, rfl⟩ := h
      exact Or.inr (Or.inr (Or.inr (Or.inr (Or.inr (Or.inr (Or.inr (Or.inr (Or.inr (Or.inr (Or.inr (Or.inr (Or.inr (Or.inr (Or.inr (Or.inr (Or.inr (Or.inr (Or.inr (Or.inr (Or.inr (Or.inr (Or.inr (Or.inr (Or.inr (Or.inr (Or.inr (Or.inl ⟨rfl, rfl, rfl, rfl, rfl, rfl, rfl, rfl, rfl⟩)))))))))))))))))))))))))))
    · obtain ⟨rfl, rfl, rfl, rfl, rfl, rfl, rfl, rfl, rfl⟩ := h
      exact Or.inr (Or.inr (Or.inr (Or.inr (Or.inr (Or.inr (Or.inr (Or.inr (Or.inr (Or.inr (Or.inr (Or.inr (Or.inr (Or.inr (Or.inr (Or.inr (Or.inr (Or.inr (Or.inr (Or.inr (Or.inr (Or.inr (Or.inr (Or.inr (Or.inr (Or.inr (Or.inr (Or.inr (Or.inl ⟨rfl, rfl, rfl, rfl, rfl, rfl, rfl, rfl, rfl⟩))))))))))))))))))))))))))))
    · obtain ⟨rfl, rfl, rfl, rfl, rfl, rfl, rfl, rfl, rfl⟩ := h
      exact Or.inr (Or.inr (Or.inr (Or.inr (Or.inr (Or.inr (Or.inr (Or.inr (Or.inr (Or.inr (Or.inr (Or.inr (Or.inr (Or.inr (Or.inr (Or.inr (Or.inr (Or.inr (Or.inr (Or.inr (Or.inr (Or.inr (Or.inr (Or.inr (Or.inr (Or.inr (Or.inr (Or.inr (Or.inr (⟨rfl, rfl, rfl, rfl, rfl, rfl, rfl, rfl, rfl⟩)))))))))))))))))))))))))))))
  · rcases h with h | h | h | h | h | h | h | h | h | h | h | h | h | h | h | h | h | h | h | h | h | h | h | h | h | h | h | h | h | h
    · obtain ⟨rfl, rfl, rfl, rfl, rfl, rfl, rfl, rfl, rfl⟩ := h
      exact Or.inr (Or.inr (Or.inl ⟨rfl, rfl, rfl, rfl, rfl, rfl, rfl, rfl, rfl⟩))
    · obtain ⟨rfl, rfl, rfl, rfl, rfl, rfl, rfl, rfl, rfl⟩ := h
      exact Or.inr (Or.inr (Or.inr (Or.inr (Or.inl ⟨rfl, rfl, rfl, rfl, rfl, rfl, rfl, rfl, rfl⟩))))
    · obtain ⟨rfl, rfl, rfl, rfl, rfl, rfl, rfl, rfl, rfl⟩ := h
      exact Or.inr (Or.inr (Or.inr (Or.inr (Or.inr (Or.inl ⟨rfl, rfl, rfl, rfl, rfl, rfl, rfl, rfl, rfl⟩)))))
    · obtain ⟨rfl, rfl, rfl, rfl, rfl, rfl, rfl, rfl, rfl⟩ := h
      exact Or.inr (Or.inr (Or.inr (Or.inr (Or.inr (Or.inr (Or.inr (Or.inl ⟨rfl, rfl, rfl, rfl, rfl, rfl, rfl, rfl, rfl⟩)))))))
    · obtain ⟨rfl, rfl, rfl, rfl, rfl, rfl, rfl, rfl, rfl⟩ := h
      exact Or.inr (Or.inr (Or.inr (Or.inr (Or.inr (Or.inr (Or.inr (Or.inr (Or.inl ⟨rfl, rfl, rfl, rfl, rfl, rfl, rfl, rfl, rfl⟩))))))))
    · obtain ⟨rfl, rfl, rfl, rfl, rfl, rfl, rfl, rfl, rfl⟩ := h
      exact Or.inr (Or.inr (Or.inr (Or.inr (Or.inr (Or.inr (Or.inr (Or.inr (Or.inr (Or.inl ⟨rfl, rfl, rfl, rfl, rfl, rfl, rfl, rfl, rfl⟩)))))))))
    · obtain ⟨rfl, rfl, rfl, rfl, rfl, rfl, rfl, rfl, rfl⟩ := h
      exact Or.inr (Or.inr (Or.inr (Or.inr (Or.inr (Or.inr (Or.inr (Or.inr (Or.inr (Or.inr (Or.inr (Or.inl ⟨rfl, rfl, rfl, rfl, rfl, rfl, rfl, rfl, rfl⟩)))))))))))
    · obtain ⟨rfl, rfl, rfl, rfl, rfl, rfl, rfl, rfl, rfl⟩ := h
      exact Or.inr (Or.inr (Or.inr (Or.inr (Or.inr (Or.inr (Or.inr (Or.inl ⟨rfl, rfl, rfl, rfl, rfl, rfl, rfl, rfl, rfl⟩)))))))
    · obtain ⟨rfl, rfl, rfl, rfl, rfl, rfl, rfl, rfl, rfl⟩ := h
      exact Or.inr (Or.inr (Or.inr (Or.inr (Or.inr (Or.inr (Or.inr (Or.inr (Or.inr (Or.inr (Or.inr (Or.inr (Or.inl ⟨rfl, rfl, rfl, rfl, rfl, rfl, rfl, rfl, rfl⟩))))))))))))
    · obtain ⟨rfl, rfl, rfl, rfl, rfl, rfl, rfl, rfl, rfl⟩ := h
      cases pm with
      | zero => exact Or.inr (Or.inr (Or.inr (Or.inr (Or.inr (Or.inr (Or.inr (Or.inr (Or.inr (Or.inl ⟨rfl, rfl, rfl, rfl, rfl, rfl, rfl, rfl, rfl⟩)))))))))
      | succ pm2 => exact Or.inr (Or.inr (Or.inr (Or.inr (Or.inr (Or.inr (Or.inr (Or.inr (Or.inr (Or.inr (Or.inr (Or.inr (Or.inr (Or.inl ⟨rfl, rfl, rfl, rfl, rfl, rfl, rfl, rfl, rfl⟩)))))))))))))
    · obtain ⟨rfl, rfl, rfl, rfl, rfl, rfl, rfl, rfl, rfl⟩ := h
      exact Or.inr (Or.inr (Or.inr (Or.inr (Or.inr (Or.inr (Or.inr (Or.inr (Or.inr (Or.inr (Or.inr (Or.inr (Or.inr (Or.inr (Or.inr (Or.inl ⟨rfl, rfl, rfl, rfl, rfl, rfl, rfl, rfl, rfl⟩)))))))))))))))
    · obtain ⟨rfl, rfl, rfl, rfl, rfl, rfl, rfl, rfl, rfl⟩ := h
      exact Or.inr (Or.inr (Or.inr (Or.inr (Or.inr (Or.inr (Or.inr (Or.inr (Or.inr (Or.inr (Or.inr (Or.inl ⟨rfl, rfl, rfl, rfl, rfl, rfl, rfl, rfl, rfl⟩)))))))))))
    · obtain ⟨rfl, rfl, rfl, rfl, rfl, rfl, rfl, rfl, rfl⟩ := h
      cases pm with
      | zero => exact Or.inr (Or.inr (Or.inr (Or.inr (Or.inr (Or.inr (Or.inr (Or.inr (Or.inr (Or.inr (Or.inr (Or.inr (Or.inl ⟨rfl, rfl, rfl, rfl, rfl, rfl, rfl, rfl, rfl⟩))))))))))))
      | succ pm2 => exact Or.inr (Or.inr (Or.inr (Or.inr (Or.inr (Or.inr (Or.inr (Or.inr (Or.inr (Or.inr (Or.inr (Or.inr (Or.inr (Or.inr (Or.inr (Or.inr (Or.inl ⟨rfl, rfl, rfl, rfl, rfl, rfl, rfl, rfl, rfl⟩))))))))))))))))
    · obtain ⟨rfl, rfl, rfl, rfl, rfl, rfl, rfl, rfl, rfl⟩ := h
      exact Or.inr (Or.inr (Or.inr (Or.inr (Or.inr (Or.inr (Or.inr (Or.inr (Or.inr (Or.inr (Or.inr (Or.inr (Or.inr (Or.inr (Or.inr (Or.inr (Or.inr (Or.inl ⟨rfl, rfl, rfl, rfl, rfl, rfl, rfl, rfl, rfl⟩)))))))))))))))))
    · obtain ⟨rfl, rfl, rfl, rfl, rfl, rfl, rfl, rfl, rfl⟩ := h
      exact Or.inr (Or.inr (Or.inr (Or.inr (Or.inr (Or.inr (Or.inr (Or.inr (Or.inr (Or.inr (Or.inr (Or.inr (Or.inr (Or.inr (Or.inr (Or.inr (Or.inr (Or.inr (Or.inl ⟨rfl, rfl, rfl, rfl, rfl, rfl, rfl, rfl, rfl⟩))))))))))))))))))
    · obtain ⟨rfl, rfl, rfl, rfl, rfl, rfl, rfl, rfl, rfl⟩ := h
      exact Or.inr (Or.inr (Or.inr (Or.inr (Or.inr (Or.inr (Or.inr (Or.inr (Or.inr (Or.inr (Or.inr (Or.inr (Or.inr (Or.inr (Or.inr (Or.inl ⟨rfl, rfl, rfl, rfl, rfl, rfl, rfl, rfl, rfl⟩)))))))))))))))
    · obtain ⟨rfl, rfl, rfl, rfl, rfl, rfl, rfl, rfl, rfl⟩ := h
      exact Or.inr (Or.inr (Or.inr (Or.inr (Or.inr (Or.inr (Or.inr (Or.inr (Or.inr (Or.inr (Or.inr (Or.inr (Or.inr (Or.inr (Or.inr (Or.inr (Or.inr (Or.inr (Or.inr (Or.inr (Or.inl ⟨rfl, rfl, rfl, rfl, rfl, rfl, rfl, rfl, rfl⟩))))))))))))))))))))
    · obtain ⟨rfl, rfl, rfl, rfl, rfl, rfl, rfl, rfl, rfl⟩ := h
      exact Or.inr (Or.inr (Or.inr (Or.inr (Or.inr (Or.inr (Or.inr (Or.inr (Or.inr (Or.inr (Or.inr (Or.inr (Or.inr (Or.inr (Or.inr (Or.inr (Or.inr (Or.inl ⟨rfl, rfl, rfl, rfl, rfl, rfl, rfl, rfl, rfl⟩)))))))))))))))))
    · obtain ⟨rfl, rfl, rfl, rfl, rfl, rfl, rfl, rfl, rfl⟩ := h
      exact Or.inr (Or.inr (Or.inr (Or.inr (Or.inr (Or.inr (Or.inr (Or.inr (Or.inr (Or.inr (Or.inr (Or.inr (Or.inr (Or.inr (Or.inr (Or.inr (Or.inr (Or.inr (Or.inr (Or.inr (Or.inr (Or.inr (Or.inl ⟨rfl, rfl, rfl, rfl, rfl, rfl, rfl, rfl, rfl⟩))))))))))))))))))))))
    · obtain ⟨rfl, rfl, rfl, rfl, rfl, rfl, rfl, rfl, rfl⟩ := h
      exact Or.inr (Or.inr (Or.inr (Or.inr (Or.inr (Or.inr (Or.inr (Or.inr (Or.inr (Or.inr (Or.inr (Or.inr (Or.inr (Or.inr (Or.inr (Or.inr (Or.inr (Or.inr (Or.inr (Or.inr (Or.inr (Or.inr (Or.inr (Or.inl ⟨rfl, rfl, rfl, rfl, rfl, rfl, rfl, rfl, rfl⟩)))))))))))))))))))))))
    · obtain ⟨rfl, rfl, rfl, rfl, rfl, rfl, rfl, rfl, rfl⟩ := h
      exact Or.inr (Or.inr (Or.inr (Or.inr (Or.inr (Or.inr (Or.inr (Or.inr (Or.inr (Or.inr (Or.inr (Or.inr (Or.inr (Or.inr (Or.inr (Or.inr (Or.inr (Or.inr (Or.inr (Or.inr (Or.inl ⟨rfl, rfl, rfl, rfl, rfl, rfl, rfl, rfl, rfl⟩))))))))))))))))))))
    · obtain ⟨rfl, rfl, rfl, rfl, rfl, rfl, rfl, rfl, rfl⟩ := h
      exact Or.inr (Or.inr (Or.inr (Or.inr (Or.inr (Or.inr (Or.inr (Or.inr (Or.inr (Or.inr (Or.inr (Or.inr (Or.inr (Or.inr (Or.inr (Or.inr (Or.inr (Or.inr (Or.inr (Or.inr (Or.inr (Or.inl ⟨rfl, rfl, rfl, rfl, rfl, rfl, rfl, rfl, rfl⟩)))))))))))))))))))))
    · obtain ⟨rfl, rfl, rfl, rfl, rfl, rfl, rfl, rfl, rfl⟩ := h
      exact Or.inr (Or.inr (Or.inr (Or.inr (Or.inr (Or.inr (Or.inr (Or.inr (Or.inr (Or.inr (Or.inr (Or.inr (Or.inr (Or.inr (Or.inr (Or.inr (Or.inr (Or.inr (Or.inr (Or.inr (Or.inr (Or.inr (Or.inr (Or.inr (Or.inr (Or.inr (Or.inl ⟨rfl, rfl, rfl, rfl, rfl, rfl, rfl, rfl, rfl⟩))))))))))))))))))))))))))
    · obtain ⟨rfl, rfl, rfl, rfl, rfl, rfl, rfl, rfl, rfl⟩ := h
      exact Or.inr (Or.inr (Or.inr (Or.inr (Or.inr (Or.inr (Or.inr (Or.inr (Or.inr (Or.inr (Or.inr (Or.inr (Or.inr (Or.inr (Or.inr (Or.inr (Or.inr (Or.inr (Or.inr (Or.inr (Or.inr (Or.inr (Or.inr (Or.inr (Or.inr (Or.inr (Or.inr (Or.inl ⟨rfl, rfl, rfl, rfl, rfl, rfl, rfl, rfl, rfl⟩)))))))))))))))))))))))))))
    · obtain ⟨rfl, rfl, rfl, rfl, rfl, rfl, rfl, rfl, rfl⟩ := h
      exact Or.inr (Or.inr (Or.inr (Or.inr (Or.inr (Or.inr (Or.inr (Or.inr (Or.inr (Or.inr (Or.inr (Or.inr (Or.inr (Or.inr (Or.inr (Or.inr (Or.inr (Or.inr (Or.inr (Or.inr (Or.inr (Or.inr (Or.inr (Or.inr (Or.inl ⟨rfl, rfl, rfl, rfl, rfl, rfl, rfl, rfl, rfl⟩))))))))))))))))))))))))
    · obtain ⟨rfl, rfl, rfl, rfl, rfl, rfl, rfl, rfl, rfl⟩ := h
      exact Or.inr (Or.inr (Or.inr (Or.inr (Or.inr (Or.inr (Or.inr (Or.inr (Or.inr (Or.inr (Or.inr (Or.inr (Or.inr (Or.inr (Or.inr (Or.inr (Or.inr (Or.inr (Or.inr (Or.inr (Or.inr (Or.inr (Or.inr (Or.inr (Or.inr (Or.inl ⟨rfl, rfl, rfl, rfl, rfl, rfl, rfl, rfl, rfl⟩)))))))))))))))))))))))))
    · obtain ⟨rfl, rfl, rfl, rfl, rfl, rfl, rfl, rfl, rfl⟩ := h
      exact Or.inr (Or.inr (Or.inr (Or.inr (Or.inr (Or.inr (Or.inr (Or.inr (Or.inr (Or.inr (Or.inr (Or.inr (Or.inr (Or.inr (Or.inr (Or.inr (Or.inr (Or.inr (Or.inr (Or.inr (Or.inr (Or.inr (Or.inr (Or.inr (Or.inr (Or.inr (Or.inl ⟨rfl, rfl, rfl, rfl, rfl, rfl, rfl, rfl, rfl⟩))))))))))))))))))))))))))
    · obtain ⟨rfl, rfl, rfl, rfl, rfl, rfl, rfl, rfl, rfl⟩ := h
      exact Or.inr (Or.inr (Or.inr (Or.inr (Or.inr (Or.inr (Or.inr (Or.inr (Or.inr (Or.inr (Or.inr (Or.inr (Or.inr (Or.inr (Or.inr (Or.inr (Or.inr (Or.inr (Or.inr (Or.inr (Or.inr (Or.inr (Or.inr (Or.inr (Or.inr (Or.inr (Or.inr (Or.inl ⟨rfl, rfl, rfl, rfl, rfl, rfl, rfl, rfl, rfl⟩)))))))))))))))))))))))))))
    · obtain ⟨rfl, rfl, rfl, rfl, rfl, rfl, rfl, rfl, rfl⟩ := h
      exact Or.inr (Or.inr (Or.inr (Or.inr (Or.inr (Or.inr (Or.inr (Or.inr (Or.inr (Or.inr (Or.inr (Or.inr (Or.inr (Or.inr (Or.inr (Or.inr (Or.inr (Or.inr (Or.inr (Or.inr (Or.inr (Or.inr (Or.inr (Or.inr (Or.inr (Or.inr (Or.inr (Or.inr (Or.inl ⟨rfl, rfl, rfl, rfl, rfl, rfl, rfl, rfl, rfl⟩))))))))))))))))))))))))))))
    · obtain ⟨rfl, rfl, rfl, rfl, rfl, rfl, rfl, rfl, rfl⟩ := h
      exact Or.inr (Or.inr (Or.inr (Or.inr (Or.inr (Or.inr (Or.inr (Or.inr (Or.inr (Or.inr (Or.inr (Or.inr (Or.inr (Or.inr (Or.inr (Or.inr (Or.inr (Or.inr (Or.inr (Or.inr (Or.inr (Or.inr (Or.inr (Or.inr (Or.inr (Or.inr (Or.inr (Or.inr (Or.inr (⟨rfl, rfl, rfl, rfl, rfl, rfl, rfl, rfl, rfl⟩)))))))))))))))))))))))))))))

theorem reach_run (path : String) (p : ℕ) (sched : List (Fin 2)) :
    ReachSet path (runSched (fun _ => true) path false p sched) := by
  unfold runSched
  suffices hstep : ∀ (l : List (Fin 2)) (c : Cfg), ReachSet path c →
      ReachSet path (l.foldl (fun c2 t => stepTask (fun _ => true) path t c2) c) by
    exact hstep sched (initCfg false p)
      (Or.inl ⟨rfl, rfl, rfl, rfl, rfl, rfl, rfl, rfl, rfl⟩)
  intro l
  induction l with
  | nil => intro c hc; exact hc
  | cons t rest ih =>
    intro c hc
    exact ih _ (reach_step path c t hc)

theorem reach_conclusions (path : String) (c : Cfg) (h : ReachSet path c) :
    ((c.task0.pc = Pc.done ∧ c.task1.pc = Pc.done) →
      c.synthCalls = 1 ∧ c.task0.result = some (Except.ok path)
        ∧ c.task1.result = some (Except.ok path))
    ∧ c.inFlight ≤ 1 := by
  obtain ⟨tb, hv0, hv1, cr, pm, fl, nf, sc, tk0, tk1⟩ := c
  rcases h with h | h | h | h | h | h | h | h | h | h | h | h | h | h | h | h | h | h | h | h | h | h | h | h | h | h | h | h | h | h
  · obtain ⟨rfl, rfl, rfl, rfl, rfl, rfl, rfl, rfl, rfl⟩ := h
    exact ⟨fun hd => Pc.noConfusion hd.1, Nat.zero_le 1⟩
  · obtain ⟨rfl, rfl, rfl, rfl, rfl, rfl, rfl, rfl, rfl⟩ := h
    exact ⟨fun hd => Pc.noConfusion hd.1, Nat.zero_le 1⟩
  · obtain ⟨rfl, rfl, rfl, rfl, rfl, rfl, rfl, rfl, rfl⟩ := h
    exact ⟨fun hd => Pc.noConfusion hd.1, Nat.zero_le 1⟩
  · obtain ⟨rfl, rfl, rfl, rfl, rfl, rfl, rfl, rfl, rfl⟩ := h
    exact ⟨fun hd => Pc.noConfusion hd.1, Nat.zero_le 1⟩
  · obtain ⟨rfl, rfl, rfl, rfl, rfl, rfl, rfl, rfl, rfl⟩ := h
    exact ⟨fun hd => Pc.noConfusion hd.1, Nat.zero_le 1⟩
  · obtain ⟨rfl, rfl, rfl, rfl, rfl, rfl, rfl, rfl, rfl⟩ := h
    exact ⟨fun hd => Pc.noConfusion hd.1, Nat.zero_le 1⟩
  · obtain ⟨rfl, rfl, rfl, rfl, rfl, rfl, rfl, rfl, rfl⟩ := h
    exact ⟨fun hd => Pc.noConfusion hd.1, Nat.zero_le 1⟩
  · obtain ⟨rfl, rfl, rfl, rfl, rfl, rfl, rfl, rfl, rfl⟩ := h
    exact ⟨fun hd => Pc.noConfusion hd.1, Nat.zero_le 1⟩
  · obtain ⟨rfl, rfl, rfl, rfl, rfl, rfl, rfl, rfl, rfl⟩ := h
    exact ⟨fun hd => Pc.noConfusion hd.1, Nat.zero_le 1⟩
  · obtain ⟨rfl, rfl, rfl, rfl, rfl, rfl, rfl, rfl, rfl⟩ := h
    exact ⟨fun hd => Pc.noConfusion hd.1, Nat.zero_le 1⟩
  · obtain ⟨rfl, rfl, rfl, rfl, rfl, rfl, rfl, rfl, rfl⟩ := h
    exact ⟨fun hd => Pc.noConfusion hd.1, Nat.le_refl 1⟩
  · obtain ⟨rfl, rfl, rfl, rfl, rfl, rfl, rfl, rfl, rfl⟩ := h
    exact ⟨fun hd => Pc.noConfusion hd.1, Nat.zero_le 1⟩
  · obtain ⟨rfl, rfl, rfl, rfl, rfl, rfl, rfl, rfl, rfl⟩ := h
    exact ⟨fun hd => Pc.noConfusion hd.1, Nat.zero_le 1⟩
  · obtain ⟨rfl, rfl, rfl, rfl, rfl, rfl, rfl, rfl, rfl⟩ := h
    exact ⟨fun hd => Pc.noConfusion hd.1, Nat.le_refl 1⟩
  · obtain ⟨rfl, rfl, rfl, rfl, rfl, rfl, rfl, rfl, rfl⟩ := h
    exact ⟨fun hd => Pc.noConfusion hd.2, Nat.zero_le 1⟩
  · obtain ⟨rfl, rfl, rfl, rfl, rfl, rfl, rfl, rfl, rfl⟩ := h
    exact ⟨fun hd => Pc.noConfusion hd.1, Nat.le_refl 1⟩
  · obtain ⟨rfl, rfl, rfl, rfl, rfl, rfl, rfl, rfl, rfl⟩ := h
    exact ⟨fun hd => Pc.noConfusion hd.1, Nat.le_refl 1⟩
  · obtain ⟨rfl, rfl, rfl, rfl, rfl, rfl, rfl, rfl, rfl⟩ := h
    exact ⟨fun hd => Pc.noConfusion hd.1, Nat.zero_le 1⟩
  · obtain ⟨rfl, rfl, rfl, rfl, rfl, rfl, rfl, rfl, rfl⟩ := h
    exact ⟨fun hd => Pc.noConfusion hd.2, Nat.zero_le 1⟩
  · obtain ⟨rfl, rfl, rfl, rfl, rfl, rfl, rfl, rfl, rfl⟩ := h
    exact ⟨fun hd => Pc.noConfusion hd.2, Nat.zero_le 1⟩
  · obtain ⟨rfl, rfl, rfl, rfl, rfl, rfl, rfl, rfl, rfl⟩ := h
    exact ⟨fun hd => Pc.noConfusion hd.1, Nat.zero_le 1⟩
  · obtain ⟨rfl, rfl, rfl, rfl, rfl, rfl, rfl, rfl, rfl⟩ := h
    exact ⟨fun hd => Pc.noConfusion hd.1, Nat.zero_le 1⟩
  · obtain ⟨rfl, rfl, rfl, rfl, rfl, rfl, rfl, rfl, rfl⟩ := h
    exact ⟨fun hd => Pc.noConfusion hd.2, Nat.zero_le 1⟩
  · obtain ⟨rfl, rfl, rfl, rfl, rfl, rfl, rfl, rfl, rfl⟩ := h
    exact ⟨fun hd => Pc.noConfusion hd.2, Nat.zero_le 1⟩
  · obtain ⟨rfl, rfl, rfl, rfl, rfl, rfl, rfl, rfl, rfl⟩ := h
    exact ⟨fun hd => Pc.noConfusion hd.1, Nat.zero_le 1⟩
  · obtain ⟨rfl, rfl, rfl, rfl, rfl, rfl, rfl, rfl, rfl⟩ := h
    exact ⟨fun hd => Pc.noConfusion hd.1, Nat.zero_le 1⟩
  · obtain ⟨rfl, rfl, rfl, rfl, rfl, rfl, rfl, rfl, rfl⟩ := h
    exact ⟨fun _ => ⟨rfl, rfl, rfl⟩, Nat.zero_le 1⟩
  · obtain ⟨rfl, rfl, rfl, rfl, rfl, rfl, rfl, rfl, rfl⟩ := h
    exact ⟨fun _ => ⟨rfl, rfl, rfl⟩, Nat.zero_le 1⟩
  · obtain ⟨rfl, rfl, rfl, rfl, rfl, rfl, rfl, rfl, rfl⟩ := h
    exact ⟨fun _ => ⟨rfl, rfl, rfl⟩, Nat.zero_le 1⟩
  · obtain ⟨rfl, rfl, rfl, rfl, rfl, rfl, rfl, rfl, rfl⟩ := h
    exact ⟨fun _ => ⟨rfl, rfl, rfl⟩, Nat.zero_le 1⟩

/-- C4: for every voice/kind/text triple (hence every cache key and target
path), under every interleaving of two concurrent `ensure_audio_cached` calls
with identical arguments, starting from a missing file and with successful
synthesis: whenever both calls have completed, exactly one synthesis call was
issued and both callers received the same file path; and at every point at most
one synthesis call for the key is in flight. -/
theorem c4_per_key_dedup (dir lang kind text : String) (p : ℕ)
    (sched : List (Fin 2)) :
    ((runSched (fun _ => true) (ensurePath dir lang kind text) false p
        sched).task0.pc = Pc.done →
      (runSched (fun _ => true) (ensurePath dir lang kind text) false p
        sched).task1.pc = Pc.done →
      ((runSched (fun _ => true) (ensurePath dir lang kind text) false p
          sched).synthCalls = 1
        ∧ (runSched (fun _ => true) (ensurePath dir lang kind text) false p
            sched).task0.result = some (Except.ok (ensurePath dir lang kind text))
        ∧ (runSched (fun _ => true) (ensurePath dir lang kind text) false p
            sched).task1.result = some (Except.ok (ensurePath dir lang kind text))))
    ∧ (runSched (fun _ => true) (ensurePath dir lang kind text) false p
        sched).inFlight ≤ 1 := by
  have h := reach_conclusions (ensurePath dir lang kind text) _
    (reach_run (ensurePath dir lang kind text) p sched)
  exact ⟨fun h0 h1 => h.1 ⟨h0, h1⟩, h.2⟩

/-- C4 witness: a concrete interleaving in which the first caller generates and
the second arrives afterwards; one synthesis call, both results the same path. -/
theorem c4_per_key_dedup_witness :
    (runSched (fun _ => true) (ensurePath "d" "EN" "sentence" "hi") false 1
        [0, 0, 0, 0, 0, 1, 1, 1]).synthCalls = 1
    ∧ (runSched (fun _ => true) (ensurePath "d" "EN" "sentence" "hi") false 1
        [0, 0, 0, 0, 0, 1, 1, 1]).task0.result
        = some (Except.ok (ensurePath "d" "EN" "sentence" "hi"))
    ∧ (runSched (fun _ => true) (ensurePath "d" "EN" "sentence" "hi") false 1
        [0, 0, 0, 0, 0, 1, 1, 1]).task1.result
        = some (Except.ok (ensurePath "d" "EN" "sentence" "hi"))
    ∧ (runSched (fun _ => true) (ensurePath "d" "EN" "sentence" "hi") false 1
        [0, 0, 0, 0, 0, 1, 1, 1]).inFlight ≤ 1 := by
  have h := c4_per_key_dedup "d" "EN" "sentence" "hi" 1 [0, 0, 0, 0, 0, 1, 1, 1]
  have hd := h.1 (by decide) (by decide)
  exact ⟨hd.1, hd.2.1, hd.2.2, h.2⟩


end Malim
